import Mathlib

/-!
# bonjour-reflector: capture, classify, resolve, rewrite, re-inject

A shallow embedding of `packet.go` and `main.go`.

* A `gopacket.Packet` is the list of its decoded layers.  Only the fields the
  program reads or writes are kept, plus one bystander field per layer.
* A Go pointer into a layer (`&eth.SrcMAC`, `&dot1q.VLANIdentifier`) is the index of
  that layer in the packet; the pointer made at `main.go:55` is a cell of its own.
* Go strings are lists of characters; `net.HardwareAddr.String` and `net.IP.String`
  follow the Go standard library.
* The buffer handed to `WritePacketData` is recorded as the layers whose bytes it holds:
  all the layers of the packet when `gopacket.SerializePacket` succeeds, only the
  innermost ones when a layer fails to serialise, none when a layer cannot be
  serialised at all. The error `SerializePacket` returns is discarded, as in the code.
* A nil pointer dereference is the outcome `none` / `Outcome.crash`.
-/

namespace BonjourReflector

/-! ## Bytes, strings, addresses -/

/-- A Go `byte`. -/
abbrev Byte := Fin 256

/-- A Go `string`, as its sequence of characters. -/
abbrev GoString := List Char

/-- Go `net.HardwareAddr`, a byte slice. The nil slice is the empty list. -/
abbrev HardwareAddr := List Byte

/-- Go `net.IP`, a byte slice. The nil slice is the empty list. -/
abbrev IP := List Byte

/-- Go `const hexDigit = "0123456789abcdef"` (package `net`). -/
def hexDigit : GoString := "0123456789abcdef".toList

/-- The expression `hexDigit[i]`. -/
def hexDigitAt (i : Nat) : Char := hexDigit.getD i '0'

/-- One iteration of the loop of `net.HardwareAddr.String`: the separator when `i > 0`,
then the two hex digits `hexDigit[b>>4]`, `hexDigit[b&0xF]`. -/
def hwStep (st : Nat × GoString) (b : Byte) : Nat × GoString :=
  (st.1 + 1,
    (if st.1 > 0 then st.2 ++ [':'] else st.2) ++ [hexDigitAt (b.val / 16), hexDigitAt (b.val % 16)])

/-- Go `func (a HardwareAddr) String() string`: empty for the empty address, otherwise
the bytes in two-digit lower-case hex separated by colons. -/
def hardwareAddrString (a : HardwareAddr) : GoString :=
  if a.length = 0 then [] else (a.foldl hwStep (0, [])).2

/-- Go `uitoa`: decimal digits of an unsigned integer. -/
def uitoa (val : Nat) : GoString := Nat.toDigits 10 val

/-- Go `isZeros`. -/
def isZeros (p : List Byte) : Bool := p.all (fun b => b.val == 0)

/-- Go `func (ip IP) To4() IP`; `none` is the nil result. -/
def To4 (ip : IP) : Option IP :=
  if ip.length = 4 then some ip
  else if ip.length = 16 ∧ isZeros (ip.take 10) = true
      ∧ (ip.getD 10 0).val = 0xff ∧ (ip.getD 11 0).val = 0xff then some (ip.drop 12)
  else none

/-- One iteration of the loop of `appendHex`: with `v := i >> (j*4)`, append
`hexDigit[v&0xf]` when `v > 0`. -/
def appendHexStep (i : Nat) (dst : GoString) (j : Nat) : GoString :=
  if i / 16 ^ j > 0 then dst ++ [hexDigitAt (i / 16 ^ j % 16)] else dst

/-- Go `appendHex(dst, i)` for a `uint32`: hex digits of `i` without leading zeros. -/
def appendHex (dst : GoString) (i : Nat) : GoString :=
  if i = 0 then dst ++ ['0']
  else [7, 6, 5, 4, 3, 2, 1, 0].foldl (appendHexStep i) dst

/-- Go `hexString`: two hex digits per byte, no punctuation. -/
def hexString (b : List Byte) : GoString :=
  b.flatMap (fun tn => [hexDigitAt (tn.val / 16), hexDigitAt (tn.val % 16)])

/-- The inner loop of `IP.String`: `for j < IPv6len && p[j] == 0 && p[j+1] == 0 { j += 2 }`. -/
def zeroRunEnd (p : IP) : Nat → Nat → Nat
  | 0, j => j
  | fuel + 1, j =>
    if j < 16 ∧ (p.getD j 0).val = 0 ∧ (p.getD (j + 1) 0).val = 0 then zeroRunEnd p fuel (j + 2) else j

/-- The first loop of `IP.String`: find the longest run of zero 16-bit groups, as the
byte offsets `(e0, e1)`, `(-1, -1)` when there is none. -/
def findZeroRun (p : IP) : Nat → Nat → Int × Int → Int × Int
  | 0, _, e => e
  | fuel + 1, i, e =>
    if i < 16 then
      let j := zeroRunEnd p 8 i
      if j > i ∧ (j : Int) - (i : Int) > e.2 - e.1 then findZeroRun p fuel (j + 2) ((i : Int), (j : Int))
      else findZeroRun p fuel (i + 2) e
    else e

/-- The second loop of `IP.String`: print the groups, with `::` in place of the run. -/
def printGroups (p : IP) (e0 e1 : Int) : Nat → Nat → GoString → GoString
  | 0, _, b => b
  | fuel + 1, i, b =>
    if i < 16 then
      if (i : Int) = e0 then
        let i1 := e1.toNat
        if i1 ≥ 16 then b ++ [':', ':']
        else printGroups p e0 e1 fuel (i1 + 2)
          (appendHex (b ++ [':', ':']) ((p.getD i1 0).val * 256 + (p.getD (i1 + 1) 0).val))
      else
        printGroups p e0 e1 fuel (i + 2)
          (appendHex (if i > 0 then b ++ [':'] else b) ((p.getD i 0).val * 256 + (p.getD (i + 1) 0).val))
    else b

/-- Go `func (ip IP) String() string`: `<nil>` for the empty slice, dotted decimal for an
IPv4 or IPv4-mapped IPv6 address, the RFC 5952 form for any other 16-byte address, and
`?` followed by the hex bytes otherwise. The two loops are those of the standard
library before it moved the printing to `net/netip`, which prints the same strings. -/
def ipString (ip : IP) : GoString :=
  if ip.length = 0 then "<nil>".toList
  else match To4 ip with
    | some p4 =>
      uitoa (p4.getD 0 0).val ++ ['.'] ++ uitoa (p4.getD 1 0).val ++ ['.']
        ++ uitoa (p4.getD 2 0).val ++ ['.'] ++ uitoa (p4.getD 3 0).val
    | none =>
      if ip.length ≠ 16 then '?' :: hexString ip
      else
        let e := findZeroRun ip 8 0 (-1, -1)
        let e := if e.2 - e.1 ≤ 2 then ((-1 : Int), (-1 : Int)) else e
        printGroups ip e.1 e.2 8 0 []


/-! ## Packets and layers -/

/-- How gopacket treats a layer when a packet is serialised: its `SerializeTo` returns
nil, its `SerializeTo` returns an error (a DNS layer holding a record type the
serialiser does not support, for one), or the layer is no `SerializableLayer` at all (a
`DecodeFailure`, for one). -/
inductive Serializing where
  | succeeds
  | fails
  | unsupported
  deriving DecidableEq, Repr

/-- The decoded layers of gopacket that the program inspects. Every other layer,
a decode failure included, is `Other`, given with what the serialiser does with it.
`EthernetType`, `Priority` and `SrcPort` are bystander fields the program never
touches. -/
inductive Layer where
  | Ethernet (SrcMAC DstMAC : HardwareAddr) (EthernetType : Nat)
  | Dot1Q (Priority : Nat) (VLANIdentifier : Nat)
  | IPv4 (DstIP : IP)
  | IPv6 (DstIP : IP)
  | UDP (SrcPort : Nat) (DstPort : Nat) (Payload : List Byte)
  | Other (contents : List Byte) (serializing : Serializing)
  deriving DecidableEq, Repr

/-- A `gopacket.Packet`: its layers, outermost first. -/
abbrev Packet := List Layer

/-- The layer types asked for with `packet.Layer(...)`. -/
inductive LayerType where
  | LayerTypeEthernet
  | LayerTypeDot1Q
  | LayerTypeIPv4
  | LayerTypeIPv6
  | LayerTypeUDP
  deriving DecidableEq, Repr

/-- Whether a layer has the given type. -/
def Layer.hasType : Layer → LayerType → Bool
  | .Ethernet _ _ _, .LayerTypeEthernet => true
  | .Dot1Q _ _, .LayerTypeDot1Q => true
  | .IPv4 _, .LayerTypeIPv4 => true
  | .IPv6 _, .LayerTypeIPv6 => true
  | .UDP _ _ _, .LayerTypeUDP => true
  | _, _ => false

/-- Position of the first layer of type `t`: the model of `packet.Layer(t)`, whose result is
nil (`none`) when the packet has no such layer. -/
def layerIndex (t : LayerType) : Packet → Option Nat
  | [] => none
  | l :: ls => if l.hasType t then some 0 else (layerIndex t ls).map (fun i => i + 1)

/-- Apply `f` to the layer at position `i`; the store behind every pointer write. -/
def updateLayer (f : Layer → Layer) : Nat → Packet → Packet
  | _, [] => []
  | 0, l :: ls => f l :: ls
  | i + 1, l :: ls => l :: updateLayer f i ls

/-- The type `*uint16` of `bonjourPacket.vlanTag`: either the address of the
`VLANIdentifier` field of the layer at position `i`, or a variable outside the packet
(the one allocated at `main.go:55`), given with its current value. -/
inductive Uint16Ptr where
  | layerField (i : Nat)
  | variable (value : Nat)
  deriving DecidableEq, Repr

/-- Where a `*uint16` points, apart from what the cell holds: the layer whose
`VLANIdentifier` it is, or `none` for the variable outside the packet. Two pointers with
the same address are the same Go pointer. -/
def Uint16Ptr.address : Uint16Ptr → Option Nat
  | .layerField i => some i
  | .variable _ => none

/-- The struct `bonjourPacket` of `packet.go`. `srcMAC` and `dstMAC` point at the
`SrcMAC` / `DstMAC` field of the layer at the given position; `none` is nil. -/
structure bonjourPacket where
  packet : Packet
  srcMAC : Option Nat
  dstMAC : Option Nat
  isIPv6 : Bool
  vlanTag : Option Uint16Ptr
  isDNSQuery : Bool
  deriving DecidableEq, Repr

/-- Read `*p` for `p = &layers[i].SrcMAC`. -/
def loadSrcMAC (packet : Packet) (i : Nat) : Option HardwareAddr :=
  match packet[i]? with
  | some (.Ethernet s _ _) => some s
  | _ => none

/-- Read `*p` for `p = &layers[i].DstMAC`. -/
def loadDstMAC (packet : Packet) (i : Nat) : Option HardwareAddr :=
  match packet[i]? with
  | some (.Ethernet _ d _) => some d
  | _ => none

/-- Read `*p` for a `*uint16`. -/
def loadUint16 (packet : Packet) : Uint16Ptr → Option Nat
  | .layerField i =>
    match packet[i]? with
    | some (.Dot1Q _ v) => some v
    | _ => none
  | .variable v => some v

/-- Write `*p = v` for `p = &layers[i].SrcMAC`. -/
def storeSrcMAC (v : HardwareAddr) : Layer → Layer
  | .Ethernet _ d t => .Ethernet v d t
  | l => l

/-- Write `*p = v` for `p = &layers[i].DstMAC`. -/
def storeDstMAC (v : HardwareAddr) : Layer → Layer
  | .Ethernet s _ t => .Ethernet s v t
  | l => l

/-- Write `*p = v` for `p = &layers[i].VLANIdentifier`. -/
def storeVLANIdentifier (v : Nat) : Layer → Layer
  | .Dot1Q p _ => .Dot1Q p v
  | l => l

/-! ## packet.go -/

/-- `parseEthernetLayer`: pointers to the MAC fields of the Ethernet layer, both nil
when the packet has none. -/
def parseEthernetLayer (packet : Packet) : Option Nat × Option Nat :=
  match layerIndex .LayerTypeEthernet packet with
  | some i => (some i, some i)
  | none => (none, none)

/-- `parseVLANTag`: pointer to the VLAN identifier of the 802.1Q layer, nil without one. -/
def parseVLANTag (packet : Packet) : Option Uint16Ptr :=
  match layerIndex .LayerTypeDot1Q packet with
  | some i => some (.layerField i)
  | none => none

/-- The `DstIP` field of the layer at position `i`. -/
def dstIPAt (packet : Packet) (i : Nat) : IP :=
  match packet[i]? with
  | some (.IPv4 d) => d
  | some (.IPv6 d) => d
  | _ => []

/-- `parseIPLayer`: destination address and version flag; an IPv6 layer, when present,
overrides an IPv4 one; the zero values (nil, false) without either. -/
def parseIPLayer (packet : Packet) : IP × Bool :=
  let r : IP × Bool :=
    match layerIndex .LayerTypeIPv4 packet with
    | some i => (dstIPAt packet i, false)
    | none => ([], false)
  match layerIndex .LayerTypeIPv6 packet with
  | some i => (dstIPAt packet i, true)
  | none => r

/-- `parseUDPLayer`: destination port and payload, the zero values without a UDP layer. -/
def parseUDPLayer (packet : Packet) : Nat × List Byte :=
  match layerIndex .LayerTypeUDP packet with
  | some i =>
    match packet[i]? with
    | some (.UDP _ dstPort payload) => (dstPort, payload)
    | _ => (0, [])
  | none => (0, [])

/-- The DNS decoder of gopacket, as far as the program uses it: the `QR` bit of the
decoded DNS layer, or `none` when the payload does not decode as DNS. It is a
parameter of the model. -/
abbrev DNSDecoder := List Byte → Option Bool

/-- The first step of gopacket's DNS decoder: a payload shorter than the 12-byte header
is rejected; otherwise `QR` is the top bit of the third byte. gopacket goes on to parse
the questions and records and rejects a message whose body does not parse, which this
step does not look at: it stands for the decoder only on the empty payload and on the
well-formed messages `queryPayload` and `responsePayload` of the concrete runs below. -/
def decodeDNSHeader : DNSDecoder := fun payload =>
  if payload.length < 12 then none else some (decide ((payload.getD 2 0).val ≥ 128))

/-- `parseDNSPayload`: `!QR` when the payload decodes as DNS, the zero value `false`
otherwise. -/
def parseDNSPayload (decodeDNS : DNSDecoder) (payload : List Byte) : Bool :=
  match decodeDNS payload with
  | some qr => !qr
  | none => false

/-- What one iteration of a loop body does. -/
inductive Outcome (α : Type) where
  | crash
  | skip
  | pass (a : α)
  deriving DecidableEq, Repr

/-- The body of the loop of `filterBonjourPacketsLazily` (`packet.go:29-59`) for one
captured packet: `crash` is the nil dereference at `srcMAC.String()`, `skip` is
`continue`, `pass` is the send on `packetChan`. -/
def filterPacket (decodeDNS : DNSDecoder) (packet : Packet) (brMACAddress : HardwareAddr) :
    Outcome bonjourPacket :=
  let tag := parseVLANTag packet
  let macs := parseEthernetLayer packet
  match macs.1.bind (loadSrcMAC packet) with
  | none => .crash
  | some src =>
    if hardwareAddrString src = hardwareAddrString brMACAddress then .skip
    else
      let ip := parseIPLayer packet
      if ipString ip.1 ≠ "224.0.0.251".toList ∧ ipString ip.1 ≠ "ff02::fb".toList then .skip
      else
        let udp := parseUDPLayer packet
        if udp.1 ≠ 5353 then .skip
        else
          .pass
            { packet := packet
              vlanTag := tag
              srcMAC := macs.1
              dstMAC := macs.2
              isIPv6 := ip.2
              isDNSQuery := parseDNSPayload decodeDNS udp.2 }

/-- The goroutine of `filterBonjourPacketsLazily` over the captured packets: the
packets sent on the channel, in order, and whether the goroutine crashed. -/
def filterBonjourPacketsLazily (decodeDNS : DNSDecoder) (brMACAddress : HardwareAddr) :
    List Packet → List bonjourPacket × Bool
  | [] => ([], false)
  | packet :: rest =>
    match filterPacket decodeDNS packet brMACAddress with
    | .crash => ([], true)
    | .skip => filterBonjourPacketsLazily decodeDNS brMACAddress rest
    | .pass a =>
      let r := filterBonjourPacketsLazily decodeDNS brMACAddress rest
      (a :: r.1, r.2)

/-- Whether a layer is a `gopacket.SerializableLayer`, which `SerializePacket` asks of
every layer before it serialises any. -/
def Layer.isSerializableLayer : Layer → Bool
  | .Other _ .unsupported => false
  | _ => true

/-- Whether `SerializeTo` of a layer returns nil: the Ethernet layer wants two MAC
addresses of six bytes, the 802.1Q layer a VLAN identifier of at most `0xFFF`; the IP and
UDP layers of a captured packet serialise. -/
def Layer.serializeToOk : Layer → Bool
  | .Ethernet s d _ => decide (d.length = 6) && decide (s.length = 6)
  | .Dot1Q _ v => decide (v ≤ 0xFFF)
  | .IPv4 _ => true
  | .IPv6 _ => true
  | .UDP _ _ _ => true
  | .Other _ .succeeds => true
  | .Other _ _ => false

/-- `gopacket.SerializeLayers`: the layers are serialised from the last to the first,
each in front of what the buffer holds, and the first error ends the loop. The result
is the layers whose bytes the buffer holds and whether no error was returned. Bytes a
failing layer reserved before its error are not recorded. -/
def SerializeLayers : Packet → Packet × Bool
  | [] => ([], true)
  | l :: ls =>
    match SerializeLayers ls with
    | (buf, false) => (buf, false)
    | (buf, true) => if l.serializeToOk then (l :: buf, true) else (buf, false)

/-- `gopacket.SerializePacket`: an error and an empty buffer when some layer is no
`SerializableLayer`, `SerializeLayers` otherwise. -/
def SerializePacket (packet : Packet) : Packet × Bool :=
  if packet.all Layer.isSerializableLayer then SerializeLayers packet else ([], false)

/-- A call of `sendBonjourPacket` that reached `handle.WritePacketData`: the `tag`
argument of the call and the buffer written, given by the layers it holds. -/
structure Emission where
  tag : Nat
  frame : Packet
  deriving DecidableEq, Repr

/-- The multicast MAC address written by `sendBonjourPacket` (`packet.go:119-123`). -/
def multicastMAC (isIPv6 : Bool) : HardwareAddr :=
  if isIPv6 then [0x33, 0x33, 0x00, 0x00, 0x00, 0xFB] else [0x01, 0x00, 0x5E, 0x00, 0x00, 0xFB]

/-- `sendBonjourPacket`: the three pointer writes, then the serialisation of
`bonjourPacket.packet`, whose error is discarded (`packet.go:126`), and the write of
the buffer to the handle. The result is the `bonjourPacket` as the caller sees it
afterwards and the emission; `none` is a nil dereference. -/
def sendBonjourPacket (bp : bonjourPacket) (tag : Nat) (brMACAddress : HardwareAddr) :
    Option (bonjourPacket × Emission) :=
  match bp.vlanTag, bp.srcMAC, bp.dstMAC with
  | some vp, some sp, some dp =>
    let bp1 : bonjourPacket :=
      match vp with
      | .layerField i => { bp with packet := updateLayer (storeVLANIdentifier tag) i bp.packet }
      | .variable _ => { bp with vlanTag := some (.variable tag) }
    let bp2 := { bp1 with packet := updateLayer (storeSrcMAC brMACAddress) sp bp1.packet }
    let bp3 := { bp2 with packet := updateLayer (storeDstMAC (multicastMAC bp2.isIPv6)) dp bp2.packet }
    some (bp3, { tag := tag, frame := (SerializePacket bp3.packet).1 })
  | _, _, _ => none

/-! ## main.go -/

/-- Modelled from the spec: the type `brDevice` is declared outside the two source
files; `main.go` reads only its field `SharedPools`, the pool identifiers the device
may announce into (the device's allow-list of section 3). -/
structure brDevice where
  SharedPools : List Nat
  deriving DecidableEq, Repr

/-- The map `cfg.Devices`, keyed by the string form of a MAC address; a parameter of the
model, as the configuration is read outside the two source files. -/
abbrev Devices := GoString → Option brDevice

/-- The map `poolsMap`, from VLAN identifier to the identifiers of its peers; a parameter
of the model, as `mapByPool` lies outside the two source files. -/
abbrev PoolsMap := Nat → Option (List Nat)

/-- The loops `for _, tag := range tags { sendBonjourPacket(rawTraffic, &bonjourPacket, tag,
brMACAddress) }` of `main.go:63-65` and `71-73`: every call works on the same
`bonjourPacket` variable, so each sees what the one before left. -/
def sendAll (brMACAddress : HardwareAddr) : bonjourPacket → List Nat → Option (bonjourPacket × List Emission)
  | bp, [] => some (bp, [])
  | bp, tag :: tags =>
    match sendBonjourPacket bp tag brMACAddress with
    | none => none
    | some (bp1, e) =>
      match sendAll brMACAddress bp1 tags with
      | none => none
      | some (bp2, es) => some (bp2, e :: es)

/-- The default of `main.go:54-56`: a nil `vlanTag` becomes a pointer to a new variable
holding 1. -/
def defaultVLANTag (bp : bonjourPacket) : bonjourPacket :=
  if bp.vlanTag = none then { bp with vlanTag := some (.variable 1) } else bp

/-- The body of the main loop (`main.go:53-74`) for one packet taken from the channel:
the emissions it makes, in order; `none` is a nil dereference. -/
def processPacket (devices : Devices) (poolsMap : PoolsMap) (brMACAddress : HardwareAddr)
    (bp : bonjourPacket) : Option (List Emission) :=
  let bp := defaultVLANTag bp
  if bp.isDNSQuery then
    match bp.vlanTag.bind (loadUint16 bp.packet) with
    | none => none
    | some vlan =>
      match poolsMap vlan with
      | none => some []
      | some tags => (sendAll brMACAddress bp tags).map (fun r => r.2)
  else
    match bp.srcMAC.bind (loadSrcMAC bp.packet) with
    | none => none
    | some src =>
      match devices (hardwareAddrString src) with
      | none => some []
      | some device => (sendAll brMACAddress bp device.SharedPools).map (fun r => r.2)

/-- The main loop (`main.go:52-75`) over the packets received from the channel: all
the emissions, in order; `none` is a nil dereference. -/
def mainLoop (devices : Devices) (poolsMap : PoolsMap) (brMACAddress : HardwareAddr) :
    List bonjourPacket → Option (List Emission)
  | [] => some []
  | bp :: rest =>
    match processPacket devices poolsMap brMACAddress bp with
    | none => none
    | some es => (mainLoop devices poolsMap brMACAddress rest).map (fun r => es ++ r)

/-- The reflector on a sequence of captured packets: the filter goroutine feeding the
main loop through the channel. `none` is a process that fails on a nil dereference, in the
filter goroutine or in the main loop; what it wrote before failing is then not
determined. -/
def reflect (decodeDNS : DNSDecoder) (devices : Devices) (poolsMap : PoolsMap)
    (brMACAddress : HardwareAddr) (captured : List Packet) : Option (List Emission) :=
  if (filterBonjourPacketsLazily decodeDNS brMACAddress captured).2 then none
  else mainLoop devices poolsMap brMACAddress
    (filterBonjourPacketsLazily decodeDNS brMACAddress captured).1

/-! ## Reading a frame

The readers below look at the layers a buffer holds; a buffer that holds no Ethernet
layer has no source or destination MAC, one that holds no 802.1Q layer has no tag. -/

/-- The VLAN identifier a frame carries: that of its first 802.1Q layer, if any. -/
def frameVLAN (frame : Packet) : Option Nat :=
  (parseVLANTag frame).bind (loadUint16 frame)

/-- The Ethernet source MAC of a frame. -/
def frameSrcMAC (frame : Packet) : Option HardwareAddr :=
  (parseEthernetLayer frame).1.bind (loadSrcMAC frame)

/-- The Ethernet destination MAC of a frame. -/
def frameDstMAC (frame : Packet) : Option HardwareAddr :=
  (parseEthernetLayer frame).2.bind (loadDstMAC frame)

/-! ## Concrete frames and configurations -/

/-- A reflector interface address. -/
def reflectorMAC : HardwareAddr := [0x02, 0x00, 0x00, 0x00, 0x00, 0x01]

/-- The address of a device on the network. -/
def deviceMAC : HardwareAddr := [0xaa, 0xbb, 0xcc, 0x00, 0x00, 0x07]

/-- A DNS query (`QR` clear) with the one question `a.local PTR IN`. -/
def queryPayload : List Byte :=
  [0, 0, 0, 0, 0, 1, 0, 0, 0, 0, 0, 0,
    1, 97, 5, 108, 111, 99, 97, 108, 0, 0, 12, 0, 1]

/-- A DNS response (`QR` and `AA` set) with the one answer `a.local A IN 10.0.0.1`. -/
def responsePayload : List Byte :=
  [0, 0, 0x84, 0, 0, 0, 0, 1, 0, 0, 0, 0,
    1, 97, 5, 108, 111, 99, 97, 108, 0, 0, 1, 0, 1, 0, 0, 0, 120, 0, 4, 10, 0, 0, 1]

/-- An mDNS query over IPv4 that arrives tagged with VLAN 5. -/
def taggedQuery : Packet :=
  [.Ethernet deviceMAC [0x01, 0x00, 0x5e, 0x00, 0x00, 0xfb] 0x8100, .Dot1Q 0 5,
    .IPv4 [224, 0, 0, 251], .UDP 5353 5353 queryPayload]

/-- The same query tagged with VLAN 1. -/
def queryOnVLAN1 : Packet :=
  [.Ethernet deviceMAC [0x01, 0x00, 0x5e, 0x00, 0x00, 0xfb] 0x8100, .Dot1Q 0 1,
    .IPv4 [224, 0, 0, 251], .UDP 5353 5353 queryPayload]

/-- The same query without an 802.1Q tag. -/
def untaggedQuery : Packet :=
  [.Ethernet deviceMAC [0x01, 0x00, 0x5e, 0x00, 0x00, 0xfb] 0x0800,
    .IPv4 [224, 0, 0, 251], .UDP 5353 5353 queryPayload]

/-- An mDNS response over IPv4 without an 802.1Q tag. -/
def untaggedResponse : Packet :=
  [.Ethernet deviceMAC [0x01, 0x00, 0x5e, 0x00, 0x00, 0xfb] 0x0800,
    .IPv4 [224, 0, 0, 251], .UDP 5353 5353 responsePayload]

/-- An mDNS response over IPv6, tagged with VLAN 7, whose destination MAC was replaced
by a unicast one on the way. -/
def taggedResponse : Packet :=
  [.Ethernet deviceMAC [0x02, 0x00, 0x00, 0x00, 0x00, 0x09] 0x8100, .Dot1Q 0 7,
    .IPv6 [0xff, 0x02, 0, 0, 0, 0, 0, 0, 0, 0, 0, 0, 0, 0, 0, 0xfb], .UDP 5353 5353 responsePayload]

/-- A UDP datagram to port 5353 whose IPv6 destination is the IPv4-mapped address
`::ffff:224.0.0.251`. -/
def mappedQuery : Packet :=
  [.Ethernet deviceMAC [0x33, 0x33, 0x00, 0x00, 0x00, 0xfb] 0x86dd,
    .IPv6 [0, 0, 0, 0, 0, 0, 0, 0, 0, 0, 0xff, 0xff, 224, 0, 0, 251], .UDP 5353 5353 queryPayload]

/-- A datagram to the mDNS group and port with an empty UDP payload. -/
def emptyPayloadFrame : Packet :=
  [.Ethernet deviceMAC [0x01, 0x00, 0x5e, 0x00, 0x00, 0xfb] 0x0800,
    .IPv4 [224, 0, 0, 251], .UDP 5353 5353 []]

/-- A frame the reflector itself sent: its source MAC is the reflector's. -/
def ownFrame : Packet :=
  [.Ethernet reflectorMAC [0x01, 0x00, 0x5e, 0x00, 0x00, 0xfb] 0x8100, .Dot1Q 0 10,
    .IPv4 [224, 0, 0, 251], .UDP 5353 5353 queryPayload]

/-- A pool map: VLAN 5 has the peers 10 and 20, VLAN 1 has the peer 30. -/
def examplePools : PoolsMap := fun v =>
  if v = 5 then some [10, 20] else if v = 1 then some [30] else none

/-- A device table with the one device `deviceMAC`, allowed into pool 10. -/
def exampleDevices : Devices := fun k =>
  if k = hardwareAddrString deviceMAC then some { SharedPools := [10] } else none

/-- A pool map that gives VLAN 5 the peers 4096, which no 802.1Q tag can carry, and 20. -/
def oversizedPools : PoolsMap := fun v => if v = 5 then some [4096, 20] else none

/-- A reflector interface address of eight bytes, as an EUI-64 interface has. -/
def longReflectorMAC : HardwareAddr := [0x02, 0x00, 0x00, 0x00, 0x00, 0x00, 0x00, 0x01]

/-- An mDNS query over IPv6, tagged with VLAN 5, whose IPv6 header is followed by a layer
that is no `SerializableLayer`. -/
def unserializableQuery : Packet :=
  [.Ethernet deviceMAC [0x33, 0x33, 0x00, 0x00, 0x00, 0xfb] 0x8100, .Dot1Q 0 5,
    .IPv6 [0xff, 0x02, 0, 0, 0, 0, 0, 0, 0, 0, 0, 0, 0, 0, 0, 0xfb],
    .Other [17, 0, 0, 0, 0, 0, 0, 0] .unsupported, .UDP 5353 5353 queryPayload]

/-- A device table without any device. -/
def noDevices : Devices := fun _ => none

/-- What the filter puts on the channel for a packet whose Ethernet layer is first. -/
def classified (decodeDNS : DNSDecoder) (packet : Packet) : bonjourPacket :=
  { packet := packet
    srcMAC := some 0
    dstMAC := some 0
    isIPv6 := (parseIPLayer packet).2
    vlanTag := parseVLANTag packet
    isDNSQuery := parseDNSPayload decodeDNS (parseUDPLayer packet).2 }

/-! ## Auxiliary notions for the proofs -/

/-- The two hex digits of a byte. -/
def hexPair (b : Byte) : GoString := [hexDigitAt (b.val / 16), hexDigitAt (b.val % 16)]

/-- The bytes after the first, each led by a colon. -/
def hwTail (a : HardwareAddr) : GoString := a.flatMap (fun b => ':' :: hexPair b)

/-- The state of a `bonjourPacket` in the main loop once `main.go:54-56` has run on a
packet that came through the filter: both MAC pointers point into the Ethernet layer at
position `i`, and `vlanTag` either points into the packet's 802.1Q layer or, when the
packet has none, at a variable outside the packet. -/
structure Ready (bp : bonjourPacket) (i : Nat) : Prop where
  src : bp.srcMAC = some i
  dst : bp.dstMAC = some i
  eth : layerIndex .LayerTypeEthernet bp.packet = some i
  tag : (∃ j, bp.vlanTag = some (.layerField j) ∧ layerIndex .LayerTypeDot1Q bp.packet = some j)
    ∨ (∃ v, bp.vlanTag = some (.variable v) ∧ layerIndex .LayerTypeDot1Q bp.packet = none)

/-- The packet after the three pointer writes of `sendBonjourPacket`, for a MAC pointer
at position `i` and a `vlanTag` pointing into the layer at position `j`. -/
def rewritten (tag : Nat) (brMACAddress : HardwareAddr) (isIPv6 : Bool) (i j : Nat)
    (packet : Packet) : Packet :=
  updateLayer (storeDstMAC (multicastMAC isIPv6)) i
    (updateLayer (storeSrcMAC brMACAddress) i (updateLayer (storeVLANIdentifier tag) j packet))

/-- The packet after the pointer writes of `sendBonjourPacket` when `vlanTag` points
outside the packet: only the two MAC writes land in it. -/
def readdressed (brMACAddress : HardwareAddr) (isIPv6 : Bool) (i : Nat) (packet : Packet) :
    Packet :=
  updateLayer (storeDstMAC (multicastMAC isIPv6)) i (updateLayer (storeSrcMAC brMACAddress) i packet)

/-- The packet the main loop hands to the serialiser for destination `tag`, for a packet
whose Ethernet layer is at position `i`: all three writes land when the packet has an
802.1Q layer, only the MAC writes when it has none. -/
def outgoing (brMACAddress : HardwareAddr) (isIPv6 : Bool) (i : Nat) (packet : Packet)
    (tag : Nat) : Packet :=
  match layerIndex .LayerTypeDot1Q packet with
  | some j => rewritten tag brMACAddress isIPv6 i j packet
  | none => readdressed brMACAddress isIPv6 i packet

/-- The destination identifiers the main loop iterates over for a packet: the pool map
entry of its VLAN (1 without a tag) for a query, the `SharedPools` of the sending device
for a response, nothing when the key is missing. -/
def destinations (devices : Devices) (poolsMap : PoolsMap) (isDNSQuery : Bool)
    (packet : Packet) : List Nat :=
  if isDNSQuery then (poolsMap ((frameVLAN packet).getD 1)).getD []
  else
    match frameSrcMAC packet with
    | some src => ((devices (hardwareAddrString src)).map (fun dv => dv.SharedPools)).getD []
    | none => []

/-- The first layer of type `t` of a packet, as `packet.Layer(t)` returns it. -/
def firstLayer (t : LayerType) (packet : Packet) : Option Layer :=
  (layerIndex t packet).bind (fun i => packet[i]?)

/-- The frame with an 802.1Q layer carrying `v` put right after its Ethernet layer, whose
`EthernetType` becomes that of 802.1Q: the same frame, tagged with `v`. -/
def withVLANTag (v : Nat) : Packet → Packet
  | [] => []
  | .Ethernet s d _ :: ls => .Ethernet s d 0x8100 :: .Dot1Q 0 v :: ls
  | l :: ls => l :: withVLANTag v ls

/-- What the first loop of `IP.String` may return: no run, or the even byte offsets of a
run of zero bytes. -/
def ZeroRun (p : IP) (e : Int × Int) : Prop :=
  e = (-1, -1) ∨ ∃ a b : Nat, e = ((a : Int), (b : Int)) ∧ a % 2 = 0 ∧ b % 2 = 0 ∧ a < b ∧ b ≤ 16
    ∧ ∀ k, a ≤ k → k < b → (p.getD k 0).val = 0

/-! ## The string form of a hardware address determines the address -/

theorem hexDigitAt_inj : ∀ i j : Fin 16, hexDigitAt i.val = hexDigitAt j.val → i = j := by
  decide

theorem hexPair_inj (a b : Byte) (h : hexPair a = hexPair b) : a = b := by
  simp only [hexPair, List.cons.injEq, and_true] at h
  have h1 := hexDigitAt_inj ⟨a.val / 16, by omega⟩ ⟨b.val / 16, by omega⟩ h.1
  have h2 := hexDigitAt_inj ⟨a.val % 16, by omega⟩ ⟨b.val % 16, by omega⟩ h.2
  simp only [Fin.mk.injEq] at h1 h2
  apply Fin.ext
  omega

theorem hwStep_foldl_pos (a : HardwareAddr) (n : Nat) (buf : GoString) (hn : 0 < n) :
    (a.foldl hwStep (n, buf)).2 = buf ++ hwTail a := by
  induction a generalizing n buf with
  | nil => simp [hwTail]
  | cons b bs ih =>
    simp only [List.foldl_cons, hwStep]
    rw [ih _ _ (Nat.succ_pos n)]
    simp [hwTail, hexPair, hn]

theorem hardwareAddrString_cons (b : Byte) (bs : HardwareAddr) :
    hardwareAddrString (b :: bs) = hexPair b ++ hwTail bs := by
  simp only [hardwareAddrString, List.length_cons, Nat.add_one_ne_zero, if_false, List.foldl_cons,
    hwStep]
  rw [hwStep_foldl_pos _ _ _ (by omega)]
  simp [hexPair]

theorem hwTail_inj : ∀ a b : HardwareAddr, hwTail a = hwTail b → a = b
  | [], [], _ => rfl
  | [], _ :: _, h => by simp [hwTail, hexPair] at h
  | _ :: _, [], h => by simp [hwTail, hexPair] at h
  | x :: xs, y :: ys, h => by
    simp only [hwTail, List.flatMap_cons, hexPair, List.cons_append, List.nil_append,
      List.cons.injEq, true_and] at h
    have hxy : x = y := hexPair_inj x y (by simp [hexPair, h.1, h.2.1])
    have := hwTail_inj xs ys h.2.2
    rw [hxy, this]

theorem hardwareAddrString_inj : ∀ a b : HardwareAddr,
    hardwareAddrString a = hardwareAddrString b → a = b
  | [], [], _ => rfl
  | [], y :: ys, h => by
    rw [hardwareAddrString_cons] at h
    simp [hardwareAddrString, hexPair] at h
  | x :: xs, [], h => by
    rw [hardwareAddrString_cons] at h
    simp [hardwareAddrString, hexPair] at h
  | x :: xs, y :: ys, h => by
    rw [hardwareAddrString_cons, hardwareAddrString_cons] at h
    simp only [hexPair, List.cons_append, List.nil_append, List.cons.injEq] at h
    have hxy : x = y := hexPair_inj x y (by simp [hexPair, h.1, h.2.1])
    rw [hxy, hwTail_inj xs ys h.2.2]

/-! ## The string form of an IP address -/

theorem hexDigitAt_mem (i : Nat) : hexDigitAt i ∈ hexDigit := by
  by_cases h : i < 16
  · have : ∀ k : Fin 16, hexDigitAt k.val ∈ hexDigit := by decide
    exact this ⟨i, h⟩
  · have hl : hexDigit.length ≤ i := by
      have : hexDigit.length = 16 := by decide
      omega
    unfold hexDigitAt
    rw [List.getD_eq_default _ _ hl]
    decide

theorem appendHexStep_foldl (i : Nat) : ∀ (js : List Nat) (dst : GoString),
    js.foldl (appendHexStep i) dst = dst ++ js.foldl (appendHexStep i) []
  | [], dst => by simp
  | j :: js, dst => by
    simp only [List.foldl_cons]
    rw [appendHexStep_foldl i js (appendHexStep i dst j),
      appendHexStep_foldl i js (appendHexStep i [] j)]
    unfold appendHexStep
    split_ifs <;> simp

theorem appendHexStep_foldl_chars (i : Nat) : ∀ (js : List Nat),
    ∀ c ∈ js.foldl (appendHexStep i) [], c ∈ hexDigit
  | [] => by simp
  | j :: js => by
    intro c hc
    simp only [List.foldl_cons] at hc
    rw [appendHexStep_foldl] at hc
    rcases List.mem_append.mp hc with h | h
    · unfold appendHexStep at h
      split_ifs at h
      · simp only [List.nil_append, List.mem_singleton] at h
        rw [h]
        exact hexDigitAt_mem _
      · simp at h
    · exact appendHexStep_foldl_chars i js c h

theorem appendHex_eq (dst : GoString) (i : Nat) : appendHex dst i = dst ++ appendHex [] i := by
  unfold appendHex
  by_cases h : i = 0
  · simp [h]
  · simp only [h, if_false]
    exact appendHexStep_foldl i _ dst

theorem appendHex_chars (i : Nat) : ∀ c ∈ appendHex [] i, c ∈ hexDigit := by
  unfold appendHex
  by_cases h : i = 0
  · simp only [h, if_true]
    decide
  · simp only [h, if_false]
    exact appendHexStep_foldl_chars i _

theorem appendHex_ne_nil (i : Nat) : appendHex [] i ≠ [] := by
  unfold appendHex
  by_cases h : i = 0
  · simp [h]
  · simp only [h, if_false]
    have : [7, 6, 5, 4, 3, 2, 1, 0] = [7, 6, 5, 4, 3, 2, 1] ++ [0] := rfl
    rw [this, List.foldl_append]
    simp only [List.foldl_cons, List.foldl_nil]
    have hpos : i / 16 ^ 0 > 0 := by simpa using Nat.pos_of_ne_zero h
    conv => lhs; unfold appendHexStep
    rw [if_pos hpos]
    simp

/-- The hex digits of a 16-bit group, one case per number of digits. -/
theorem appendHex_group (g : Nat) (hg : g < 65536) :
    appendHex [] g =
      if g = 0 then ['0']
      else if g < 16 then [hexDigitAt g]
      else if g < 256 then [hexDigitAt (g / 16), hexDigitAt (g % 16)]
      else if g < 4096 then [hexDigitAt (g / 256), hexDigitAt (g / 16 % 16), hexDigitAt (g % 16)]
      else [hexDigitAt (g / 4096), hexDigitAt (g / 256 % 16), hexDigitAt (g / 16 % 16),
        hexDigitAt (g % 16)] := by
  unfold appendHex
  by_cases h0 : g = 0
  · simp [h0]
  · simp only [h0, if_false, List.foldl_cons, List.foldl_nil]
    have z7 : ¬ g / 16 ^ 7 > 0 := by norm_num; omega
    have z6 : ¬ g / 16 ^ 6 > 0 := by norm_num; omega
    have z5 : ¬ g / 16 ^ 5 > 0 := by norm_num; omega
    have z4 : ¬ g / 16 ^ 4 > 0 := by norm_num; omega
    have e7 : appendHexStep g [] 7 = [] := by unfold appendHexStep; rw [if_neg z7]
    have e6 : appendHexStep g [] 6 = [] := by unfold appendHexStep; rw [if_neg z6]
    have e5 : appendHexStep g [] 5 = [] := by unfold appendHexStep; rw [if_neg z5]
    have e4 : appendHexStep g [] 4 = [] := by unfold appendHexStep; rw [if_neg z4]
    rw [e7, e6, e5, e4]
    unfold appendHexStep
    norm_num
    by_cases h1 : g < 16
    · have a3 : g / 4096 = 0 := by omega
      have a2 : g / 256 = 0 := by omega
      have a1 : g / 16 = 0 := by omega
      have : g % 16 = g := by omega
      simp [h1, a3, a2, a1, Nat.pos_of_ne_zero h0, this]
    · by_cases h2 : g < 256
      · have a3 : g / 4096 = 0 := by omega
        have a2 : g / 256 = 0 := by omega
        have a1 : 0 < g / 16 := by omega
        have : g / 16 % 16 = g / 16 := by omega
        simp [h1, h2, a3, a2, a1, Nat.pos_of_ne_zero h0, this]
      · by_cases h3 : g < 4096
        · have a3 : g / 4096 = 0 := by omega
          have a2 : 0 < g / 256 := by omega
          have a1 : 0 < g / 16 := by omega
          have : g / 256 % 16 = g / 256 := by omega
          simp [h1, h2, h3, a3, a2, a1, Nat.pos_of_ne_zero h0, this]
        · have a3 : 0 < g / 4096 := by omega
          have a2 : 0 < g / 256 := by omega
          have a1 : 0 < g / 16 := by omega
          have : g / 4096 % 16 = g / 4096 := by omega
          simp [h1, h2, h3, a3, a2, a1, Nat.pos_of_ne_zero h0, this]


theorem hexDigitAt_eq (k m : Nat) (hk : k < 16) (hm : m < 16)
    (h : hexDigitAt k = hexDigitAt m) : k = m := by
  have := hexDigitAt_inj ⟨k, hk⟩ ⟨m, hm⟩ h
  simpa using this

theorem appendHex_eq_ff02 (g : Nat) (hg : g < 65536)
    (h : appendHex [] g = ['f', 'f', '0', '2']) : g = 0xff02 := by
  rw [appendHex_group g hg] at h
  split_ifs at h with h0 h1 h2 h3
  · simp at h
  · simp at h
  · simp at h
  · simp at h
  · simp only [List.cons.injEq, and_true] at h
    have e1 := hexDigitAt_eq (g / 4096) 15 (by omega) (by omega) (h.1.trans (by decide))
    have e2 := hexDigitAt_eq (g / 256 % 16) 15 (by omega) (by omega) (h.2.1.trans (by decide))
    have e3 := hexDigitAt_eq (g / 16 % 16) 0 (by omega) (by omega) (h.2.2.1.trans (by decide))
    have e4 := hexDigitAt_eq (g % 16) 2 (by omega) (by omega) (h.2.2.2.trans (by decide))
    omega

theorem appendHex_eq_fb (g : Nat) (hg : g < 65536)
    (h : appendHex [] g = ['f', 'b']) : g = 0xfb := by
  rw [appendHex_group g hg] at h
  split_ifs at h with h0 h1 h2 h3
  · simp at h
  · simp at h
  · simp only [List.cons.injEq, and_true] at h
    have e1 := hexDigitAt_eq (g / 16) 15 (by omega) (by omega) (h.1.trans (by decide))
    have e2 := hexDigitAt_eq (g % 16) 11 (by omega) (by omega) (h.2.trans (by decide))
    omega
  · simp at h
  · simp at h

/-- Splitting two strings at their first colon, when what stands before is hex. -/
theorem split_at_sep (sep : Char) : ∀ (xs ys r1 r2 : GoString), sep ∉ xs → sep ∉ ys →
    xs ++ sep :: r1 = ys ++ sep :: r2 → xs = ys ∧ r1 = r2
  | [], [], _, _, _, _, h => by simpa using h
  | [], y :: ys, r1, r2, _, hy, h => by
    simp only [List.nil_append, List.cons_append, List.cons.injEq] at h
    exact absurd h.1 (fun e => hy (by simp [e]))
  | x :: xs, [], r1, r2, hx, _, h => by
    simp only [List.nil_append, List.cons_append, List.cons.injEq] at h
    exact absurd h.1 (fun e => hx (by simp [e]))
  | x :: xs, y :: ys, r1, r2, hx, hy, h => by
    simp only [List.cons_append, List.cons.injEq] at h
    have := split_at_sep sep xs ys r1 r2 (fun m => hx (by simp [m])) (fun m => hy (by simp [m])) h.2
    exact ⟨by rw [h.1, this.1], this.2⟩

/-- The 16-bit group at byte offset `i`. -/
theorem group_lt (p : IP) (i : Nat) : (p.getD i 0).val * 256 + (p.getD (i + 1) 0).val < 65536 := by
  have h1 := (p.getD i 0).isLt
  have h2 := (p.getD (i + 1) 0).isLt
  omega

theorem printGroups_acc (p : IP) (e0 e1 : Int) : ∀ (fuel i : Nat) (b : GoString),
    printGroups p e0 e1 fuel i b = b ++ printGroups p e0 e1 fuel i []
  | 0, _, b => by simp [printGroups]
  | fuel + 1, i, b => by
    unfold printGroups
    by_cases hi : i < 16
    · simp only [hi, if_true]
      by_cases he : (i : Int) = e0
      · simp only [he, if_true]
        by_cases h1 : e1.toNat ≥ 16
        · simp [h1]
        · simp only [h1, if_false]
          rw [printGroups_acc p e0 e1 fuel _ (appendHex _ _),
            printGroups_acc p e0 e1 fuel _ (appendHex ([] ++ _) _),
            appendHex_eq (b ++ _), appendHex_eq ([] ++ _)]
          simp
      · simp only [he, if_false]
        rw [printGroups_acc p e0 e1 fuel _ (appendHex _ _),
          printGroups_acc p e0 e1 fuel _ (appendHex (if i > 0 then [] ++ _ else []) _),
          appendHex_eq (if i > 0 then b ++ _ else b), appendHex_eq (if i > 0 then [] ++ _ else [])]
        split_ifs <;> simp
    · simp [hi]

/-- After the first group, what `printGroups` adds is nothing or starts with a colon. -/
theorem printGroups_tail (p : IP) (e0 e1 : Int) (fuel i : Nat) (hi : 0 < i) :
    printGroups p e0 e1 fuel i [] = [] ∨ ∃ r, printGroups p e0 e1 fuel i [] = ':' :: r := by
  cases fuel with
  | zero => left; rfl
  | succ fuel =>
    unfold printGroups
    by_cases h16 : i < 16
    · right
      simp only [h16, if_true]
      by_cases he : (i : Int) = e0
      · simp only [he, if_true]
        by_cases h1 : e1.toNat ≥ 16
        · exact ⟨[':'], by simp [h1]⟩
        · simp only [h1, if_false]
          rw [printGroups_acc, appendHex_eq]
          exact ⟨_, by simp; rfl⟩
      · simp only [he, if_false, hi, if_true]
        rw [printGroups_acc, appendHex_eq]
        exact ⟨_, by simp; rfl⟩
    · left
      simp [h16]

theorem printGroups_eq_nil (p : IP) (e0 e1 : Int) (fuel i : Nat)
    (h : printGroups p e0 e1 (fuel + 1) i [] = []) : 16 ≤ i := by
  by_contra hlt
  have h16 : i < 16 := by omega
  unfold printGroups at h
  simp only [h16, if_true] at h
  by_cases he : (i : Int) = e0
  · simp only [he, if_true] at h
    by_cases h1 : e1.toNat ≥ 16
    · simp [h1] at h
    · simp only [h1, if_false] at h
      rw [printGroups_acc, appendHex_eq] at h
      simp at h
  · simp only [he, if_false] at h
    rw [printGroups_acc] at h
    rw [appendHex_eq] at h
    simp at h
    exact appendHex_ne_nil _ h.2.1


theorem zeroRunEnd_spec (p : IP) : ∀ (fuel j : Nat),
    j ≤ zeroRunEnd p fuel j ∧ zeroRunEnd p fuel j % 2 = j % 2
      ∧ (j % 2 = 0 → j ≤ 16 → zeroRunEnd p fuel j ≤ 16)
      ∧ ∀ k, j ≤ k → k < zeroRunEnd p fuel j → (p.getD k 0).val = 0
  | 0, j => by simp [zeroRunEnd]; intro k h1 h2; omega
  | fuel + 1, j => by
    unfold zeroRunEnd
    by_cases h : j < 16 ∧ (p.getD j 0).val = 0 ∧ (p.getD (j + 1) 0).val = 0
    · simp only [h, and_self, if_true]
      obtain ⟨h1, h2, h3, h4⟩ := zeroRunEnd_spec p fuel (j + 2)
      refine ⟨by omega, by omega, fun he hl => h3 (by omega) (by omega), ?_⟩
      intro k hk1 hk2
      by_cases hkj : k = j
      · rw [hkj]; exact h.2.1
      · by_cases hkj1 : k = j + 1
        · rw [hkj1]; exact h.2.2
        · exact h4 k (by omega) hk2
    · rw [if_neg h]
      exact ⟨le_refl _, rfl, fun _ hl => hl, fun k h1 h2 => by omega⟩

theorem findZeroRun_spec (p : IP) : ∀ (fuel i : Nat) (e : Int × Int),
    i % 2 = 0 → ZeroRun p e → ZeroRun p (findZeroRun p fuel i e)
  | 0, _, _, _, he => he
  | fuel + 1, i, e, hi, he => by
    unfold findZeroRun
    by_cases h16 : i < 16
    · simp only [h16, if_true]
      obtain ⟨h1, h2, h3, h4⟩ := zeroRunEnd_spec p 8 i
      split_ifs with hc
      · refine findZeroRun_spec p fuel _ _ (by omega) (Or.inr ⟨i, zeroRunEnd p 8 i, rfl, hi, by omega,
          hc.1, h3 hi (by omega), h4⟩)
      · exact findZeroRun_spec p fuel _ _ (by omega) he
    · simp only [h16, if_false]
      exact he

theorem colon_not_hex : ':' ∉ hexDigit := by decide

theorem dot_not_hex : '.' ∉ hexDigit := by decide

/-- The groups print as `ff02::fb` only for the address `ff02::fb`. -/
theorem printGroups_eq_ff02_fb (p : IP) (e : Int × Int) (he : ZeroRun p e)
    (h : printGroups p e.1 e.2 8 0 [] = "ff02::fb".toList) :
    (p.getD 0 0).val = 0xff ∧ (p.getD 1 0).val = 0x02
      ∧ (∀ k, 2 ≤ k → k < 14 → (p.getD k 0).val = 0)
      ∧ (p.getD 14 0).val = 0 ∧ (p.getD 15 0).val = 0xfb := by
  have htarget : "ff02::fb".toList = ['f', 'f', '0', '2'] ++ ':' :: [':', 'f', 'b'] := by decide
  rw [htarget] at h
  unfold printGroups at h
  simp only [show (0 : Nat) < 16 by omega, if_true] at h
  by_cases h0 : ((0 : Nat) : Int) = e.1
  · exfalso
    simp only [h0, if_true] at h
    by_cases h1 : e.2.toNat ≥ 16
    · simp [h1] at h
    · simp only [h1, if_false] at h
      rw [printGroups_acc, appendHex_eq] at h
      simp at h
  · simp only [h0, if_false, show ¬ (0 : Nat) > 0 by omega] at h
    rw [printGroups_acc] at h
    have hhex := appendHex_chars ((p.getD 0 0).val * 256 + (p.getD (0 + 1) 0).val)
    have hnc : ':' ∉ appendHex [] ((p.getD 0 0).val * 256 + (p.getD (0 + 1) 0).val) :=
      fun m => colon_not_hex (hhex _ m)
    rcases printGroups_tail p e.1 e.2 7 (0 + 2) (by omega) with hr | ⟨r, hr⟩
    · exfalso
      rw [hr, List.append_nil] at h
      rw [h] at hnc
      exact hnc (by simp)
    · rw [hr] at h
      obtain ⟨hg0, hrest⟩ := split_at_sep ':' _ _ _ _ hnc (by decide) h
      have g0 := appendHex_eq_ff02 _ (group_lt p 0) hg0
      rw [hrest] at hr
      unfold printGroups at hr
      simp only [show (0 + 2 : Nat) < 16 by omega, if_true] at hr
      by_cases h2 : ((0 + 2 : Nat) : Int) = e.1
      · simp only [h2, if_true] at hr
        by_cases h1 : e.2.toNat ≥ 16
        · simp [h1] at hr
        · simp only [h1, if_false] at hr
          rw [printGroups_acc, appendHex_eq] at hr
          simp only [List.nil_append, List.cons_append, List.cons.injEq, true_and,
            List.append_assoc] at hr
          have hhex1 := appendHex_chars ((p.getD e.2.toNat 0).val * 256 + (p.getD (e.2.toNat + 1) 0).val)
          rcases printGroups_tail p e.1 e.2 6 (e.2.toNat + 2) (by omega) with hr2 | ⟨r2, hr2⟩
          · rw [hr2, List.append_nil] at hr
            have g7 := appendHex_eq_fb _ (group_lt p _) hr
            have hge := printGroups_eq_nil p e.1 e.2 5 _ hr2
            rcases he with he | ⟨a, b, hab, ha2, hb2, hlt, hb16, hz⟩
            · rw [he] at h2
              simp at h2
            · subst hab
              simp only [Int.toNat_ofNat] at h1 hge g7 h2
              have ha : a = 2 := by omega
              have hb : b = 14 := by omega
              subst ha hb
              have b0 := (p.getD 0 0).isLt
              have b1 := (p.getD (0 + 1) 0).isLt
              have b14 := (p.getD 14 0).isLt
              have b15 := (p.getD (14 + 1) 0).isLt
              simp only [Nat.zero_add] at g0 b1
              simp only [Nat.reduceAdd] at g7 b15
              refine ⟨by omega, by omega, hz, by omega, by omega⟩
          · exfalso
            rw [hr2] at hr
            have : ':' ∈ ['f', 'b'] := by
              rw [← hr]
              simp
            simp at this
      · exfalso
        simp only [h2, if_false, show (0 + 2 : Nat) > 0 by omega, if_true] at hr
        rw [printGroups_acc, appendHex_eq] at hr
        simp only [List.nil_append, List.cons_append, List.cons.injEq, true_and,
          List.append_assoc] at hr
        have hne := appendHex_ne_nil ((p.getD (0 + 2) 0).val * 256 + (p.getD (0 + 2 + 1) 0).val)
        have hhex2 := appendHex_chars ((p.getD (0 + 2) 0).val * 256 + (p.getD (0 + 2 + 1) 0).val)
        cases hx : appendHex [] ((p.getD (0 + 2) 0).val * 256 + (p.getD (0 + 2 + 1) 0).val) with
        | nil => exact hne hx
        | cons c cs =>
          rw [hx] at hr hhex2
          simp only [List.cons_append, List.cons.injEq] at hr
          have := hhex2 c (by simp)
          rw [hr.1] at this
          exact colon_not_hex this


theorem printGroups_no_dot (p : IP) (e0 e1 : Int) : ∀ (fuel i : Nat) (b : GoString),
    '.' ∉ b → '.' ∉ printGroups p e0 e1 fuel i b
  | 0, _, b, hb => by simpa [printGroups] using hb
  | fuel + 1, i, b, hb => by
    have hx : ∀ (b1 : GoString) (g : Nat), '.' ∉ b1 → '.' ∉ appendHex b1 g := by
      intro b1 g hb1 hm
      rw [appendHex_eq] at hm
      rcases List.mem_append.mp hm with m | m
      · exact hb1 m
      · exact dot_not_hex (appendHex_chars g _ m)
    have hcc : '.' ∉ b ++ [':', ':'] := by
      intro m
      rcases List.mem_append.mp m with m | m
      · exact hb m
      · simp at m
    have hc : '.' ∉ b ++ [':'] := by
      intro m
      rcases List.mem_append.mp m with m | m
      · exact hb m
      · simp at m
    unfold printGroups
    by_cases h16 : i < 16
    · rw [if_pos h16]
      by_cases he : (i : Int) = e0
      · rw [if_pos he]
        by_cases h1 : e1.toNat ≥ 16
        · simp only [h1, if_true]
          exact hcc
        · simp only [h1, if_false]
          exact printGroups_no_dot p e0 e1 fuel _ _ (hx _ _ hcc)
      · rw [if_neg he]
        by_cases hi : i > 0
        · rw [if_pos hi]
          exact printGroups_no_dot p e0 e1 fuel _ _ (hx _ _ hc)
        · rw [if_neg hi]
          exact printGroups_no_dot p e0 e1 fuel _ _ (hx _ _ hb)
    · rw [if_neg h16]
      exact hb

set_option maxRecDepth 100000 in
theorem uitoa_no_dot : ∀ a : Byte, '.' ∉ uitoa a.val := by decide

set_option maxRecDepth 100000 in
theorem uitoa_head : ∀ a : Byte, (uitoa a.val).head? ≠ some 'f' ∧ (uitoa a.val).head? ≠ none := by
  decide

set_option maxRecDepth 100000 in
theorem uitoa_eq_224 : ∀ a : Byte, uitoa a.val = ['2', '2', '4'] → a = 224 := by decide

set_option maxRecDepth 100000 in
theorem uitoa_eq_0 : ∀ a : Byte, uitoa a.val = ['0'] → a = 0 := by decide

set_option maxRecDepth 100000 in
theorem uitoa_eq_251 : ∀ a : Byte, uitoa a.val = ['2', '5', '1'] → a = 251 := by decide

/-- The dotted decimal form of four bytes is `224.0.0.251` only for those bytes, and is
never `ff02::fb`. -/
theorem dotted_eq (a b c d : Byte) :
    (uitoa a.val ++ ['.'] ++ uitoa b.val ++ ['.'] ++ uitoa c.val ++ ['.'] ++ uitoa d.val
        = "224.0.0.251".toList ↔ a = 224 ∧ b = 0 ∧ c = 0 ∧ d = 251)
      ∧ uitoa a.val ++ ['.'] ++ uitoa b.val ++ ['.'] ++ uitoa c.val ++ ['.'] ++ uitoa d.val
        ≠ "ff02::fb".toList := by
  constructor
  · constructor
    · intro h
      have ht : "224.0.0.251".toList
          = ['2', '2', '4'] ++ '.' :: (['0'] ++ '.' :: (['0'] ++ '.' :: ['2', '5', '1'])) := by
        decide
      rw [ht] at h
      simp only [List.append_assoc, List.singleton_append] at h
      obtain ⟨h1, h⟩ := split_at_sep '.' (uitoa a.val) ['2', '2', '4']
        (uitoa b.val ++ '.' :: (uitoa c.val ++ '.' :: uitoa d.val))
        (['0'] ++ '.' :: (['0'] ++ '.' :: ['2', '5', '1'])) (uitoa_no_dot a) (by decide) h
      obtain ⟨h2, h⟩ := split_at_sep '.' (uitoa b.val) ['0']
        (uitoa c.val ++ '.' :: uitoa d.val) (['0'] ++ '.' :: ['2', '5', '1'])
        (uitoa_no_dot b) (by decide) h
      obtain ⟨h3, h4⟩ := split_at_sep '.' (uitoa c.val) ['0'] (uitoa d.val) ['2', '5', '1']
        (uitoa_no_dot c) (by decide) h
      exact ⟨uitoa_eq_224 a h1, uitoa_eq_0 b h2, uitoa_eq_0 c h3, uitoa_eq_251 d h4⟩
    · rintro ⟨rfl, rfl, rfl, rfl⟩
      decide
  · intro h
    have hh := uitoa_head a
    cases hu : uitoa a.val with
    | nil => simp [hu] at hh
    | cons x xs =>
      rw [hu] at h hh
      have ht : "ff02::fb".toList = 'f' :: ['f', '0', '2', ':', ':', 'f', 'b'] := by decide
      rw [ht] at h
      simp only [List.cons_append, List.cons.injEq] at h
      simp [h.1] at hh

theorem length_four (ip : IP) (h : ip.length = 4) : ∃ a b c d, ip = [a, b, c, d] := by
  match ip, h with
  | [a, b, c, d], _ => exact ⟨a, b, c, d, rfl⟩

theorem length_sixteen (ip : IP) (h : ip.length = 16) :
    ∃ a0 a1 a2 a3 a4 a5 a6 a7 a8 a9 a10 a11 a12 a13 a14 a15,
      ip = [a0, a1, a2, a3, a4, a5, a6, a7, a8, a9, a10, a11, a12, a13, a14, a15] := by
  match ip, h with
  | [a0, a1, a2, a3, a4, a5, a6, a7, a8, a9, a10, a11, a12, a13, a14, a15], _ =>
    exact ⟨a0, a1, a2, a3, a4, a5, a6, a7, a8, a9, a10, a11, a12, a13, a14, a15, rfl⟩


theorem ipString_dotted (ip p4 : IP) (hlen : ip.length ≠ 0) (h4 : To4 ip = some p4) :
    ipString ip = uitoa (p4.getD 0 0).val ++ ['.'] ++ uitoa (p4.getD 1 0).val ++ ['.']
        ++ uitoa (p4.getD 2 0).val ++ ['.'] ++ uitoa (p4.getD 3 0).val := by
  unfold ipString
  rw [if_neg hlen, h4]

theorem ipString_groups (ip : IP) (hlen : ip.length = 16) (h4 : To4 ip = none) :
    ∃ e, ZeroRun ip e ∧ ipString ip = printGroups ip e.1 e.2 8 0 [] := by
  have hz : ZeroRun ip (findZeroRun ip 8 0 (-1, -1)) :=
    findZeroRun_spec ip 8 0 _ rfl (Or.inl rfl)
  refine ⟨if (findZeroRun ip 8 0 (-1, -1)).2 - (findZeroRun ip 8 0 (-1, -1)).1 ≤ 2
      then ((-1 : Int), (-1 : Int)) else findZeroRun ip 8 0 (-1, -1), ?_, ?_⟩
  · split_ifs
    · exact Or.inl rfl
    · exact hz
  · unfold ipString
    rw [if_neg (by omega), h4]
    simp only [hlen, ne_eq, not_true_eq_false, if_false]

/-- The destination addresses that print as one of the two strings the filter compares
with: `224.0.0.251` is printed for the IPv4 address and for its IPv4-mapped IPv6 form
`::ffff:224.0.0.251`, `ff02::fb` for that IPv6 address only. -/
theorem ipString_mdns (ip : IP) :
    (ipString ip = "224.0.0.251".toList ↔
        ip = [224, 0, 0, 251] ∨ ip = [0, 0, 0, 0, 0, 0, 0, 0, 0, 0, 0xff, 0xff, 224, 0, 0, 251])
      ∧ (ipString ip = "ff02::fb".toList ↔
        ip = [0xff, 0x02, 0, 0, 0, 0, 0, 0, 0, 0, 0, 0, 0, 0, 0, 0xfb]) := by
  have hback1 : ip = [224, 0, 0, 251] ∨ ip = [0, 0, 0, 0, 0, 0, 0, 0, 0, 0, 0xff, 0xff, 224, 0, 0, 251] →
      ipString ip = "224.0.0.251".toList := by
    rintro (rfl | rfl) <;> decide
  have hback2 : ip = [0xff, 0x02, 0, 0, 0, 0, 0, 0, 0, 0, 0, 0, 0, 0, 0, 0xfb] →
      ipString ip = "ff02::fb".toList := by
    rintro rfl
    decide
  refine ⟨⟨?_, hback1⟩, ⟨?_, hback2⟩⟩
  · intro h
    by_cases h0 : ip.length = 0
    · rw [List.length_eq_zero.mp h0] at h
      exact absurd h (by decide)
    · cases h4 : To4 ip with
      | some p4 =>
        rw [ipString_dotted ip p4 h0 h4] at h
        unfold To4 at h4
        split_ifs at h4 with hl4 hl16
        · obtain ⟨a, b, c, d, rfl⟩ := length_four ip hl4
          simp only [Option.some.injEq] at h4
          subst h4
          obtain ⟨rfl, rfl, rfl, rfl⟩ := (dotted_eq a b c d).1.mp h
          exact Or.inl rfl
        · obtain ⟨a0, a1, a2, a3, a4, a5, a6, a7, a8, a9, a10, a11, a12, a13, a14, a15, rfl⟩ :=
            length_sixteen ip hl16.1
          simp only [Option.some.injEq] at h4
          subst h4
          obtain ⟨rfl, rfl, rfl, rfl⟩ := (dotted_eq a12 a13 a14 a15).1.mp h
          obtain ⟨_, hz, h10, h11⟩ := hl16
          simp only [isZeros, List.take, List.all_cons, List.all_nil, Bool.and_true,
            Bool.and_eq_true, beq_iff_eq] at hz
          simp only [List.getD_cons_succ, List.getD_cons_zero] at h10 h11
          right
          have e0 : a0 = 0 := Fin.ext hz.1
          have e1 : a1 = 0 := Fin.ext hz.2.1
          have e2 : a2 = 0 := Fin.ext hz.2.2.1
          have e3 : a3 = 0 := Fin.ext hz.2.2.2.1
          have e4 : a4 = 0 := Fin.ext hz.2.2.2.2.1
          have e5 : a5 = 0 := Fin.ext hz.2.2.2.2.2.1
          have e6 : a6 = 0 := Fin.ext hz.2.2.2.2.2.2.1
          have e7 : a7 = 0 := Fin.ext hz.2.2.2.2.2.2.2.1
          have e8 : a8 = 0 := Fin.ext hz.2.2.2.2.2.2.2.2.1
          have e9 : a9 = 0 := Fin.ext hz.2.2.2.2.2.2.2.2.2
          have e10 : a10 = 0xff := Fin.ext h10
          have e11 : a11 = 0xff := Fin.ext h11
          rw [e0, e1, e2, e3, e4, e5, e6, e7, e8, e9, e10, e11]
      | none =>
        exfalso
        by_cases hl16 : ip.length = 16
        · obtain ⟨e, _, he⟩ := ipString_groups ip hl16 h4
          rw [he] at h
          have := printGroups_no_dot ip e.1 e.2 8 0 [] (by simp)
          rw [h] at this
          exact this (by decide)
        · unfold ipString at h
          rw [if_neg h0, h4] at h
          simp [hl16] at h
  · intro h
    by_cases h0 : ip.length = 0
    · rw [List.length_eq_zero.mp h0] at h
      exact absurd h (by decide)
    · cases h4 : To4 ip with
      | some p4 =>
        exfalso
        rw [ipString_dotted ip p4 h0 h4] at h
        exact (dotted_eq _ _ _ _).2 h
      | none =>
        by_cases hl16 : ip.length = 16
        · obtain ⟨e, hz, he⟩ := ipString_groups ip hl16 h4
          rw [he] at h
          obtain ⟨g0, g1, gz, g14, g15⟩ := printGroups_eq_ff02_fb ip e hz h
          obtain ⟨a0, a1, a2, a3, a4, a5, a6, a7, a8, a9, a10, a11, a12, a13, a14, a15, rfl⟩ :=
            length_sixteen ip hl16
          have z0 : a0.val = 0xff := g0
          have z1 : a1.val = 0x02 := g1
          have z2 : a2.val = 0 := gz 2 (by omega) (by omega)
          have z3 : a3.val = 0 := gz 3 (by omega) (by omega)
          have z4 : a4.val = 0 := gz 4 (by omega) (by omega)
          have z5 : a5.val = 0 := gz 5 (by omega) (by omega)
          have z6 : a6.val = 0 := gz 6 (by omega) (by omega)
          have z7 : a7.val = 0 := gz 7 (by omega) (by omega)
          have z8 : a8.val = 0 := gz 8 (by omega) (by omega)
          have z9 : a9.val = 0 := gz 9 (by omega) (by omega)
          have z10 : a10.val = 0 := gz 10 (by omega) (by omega)
          have z11 : a11.val = 0 := gz 11 (by omega) (by omega)
          have z12 : a12.val = 0 := gz 12 (by omega) (by omega)
          have z13 : a13.val = 0 := gz 13 (by omega) (by omega)
          have z14 : a14.val = 0 := g14
          have z15 : a15.val = 0xfb := g15
          have e0 : a0 = 0xff := Fin.ext z0
          have e1 : a1 = 0x02 := Fin.ext z1
          have e2 : a2 = 0 := Fin.ext z2
          have e3 : a3 = 0 := Fin.ext z3
          have e4 : a4 = 0 := Fin.ext z4
          have e5 : a5 = 0 := Fin.ext z5
          have e6 : a6 = 0 := Fin.ext z6
          have e7 : a7 = 0 := Fin.ext z7
          have e8 : a8 = 0 := Fin.ext z8
          have e9 : a9 = 0 := Fin.ext z9
          have e10 : a10 = 0 := Fin.ext z10
          have e11 : a11 = 0 := Fin.ext z11
          have e12 : a12 = 0 := Fin.ext z12
          have e13 : a13 = 0 := Fin.ext z13
          have e14 : a14 = 0 := Fin.ext z14
          have e15 : a15 = 0xfb := Fin.ext z15
          rw [e0, e1, e2, e3, e4, e5, e6, e7, e8, e9, e10, e11, e12, e13, e14, e15]
        · exfalso
          unfold ipString at h
          rw [if_neg h0, h4] at h
          simp [hl16] at h

/-! ## Layers, positions and pointer writes -/

theorem layerIndex_getElem? (t : LayerType) : ∀ (p : Packet) (i : Nat),
    layerIndex t p = some i → ∃ l, p[i]? = some l ∧ l.hasType t = true
  | [], _, h => by simp [layerIndex] at h
  | l :: ls, i, h => by
    unfold layerIndex at h
    by_cases hl : l.hasType t = true
    · simp only [hl, if_true, Option.some.injEq] at h
      subst h
      exact ⟨l, by simp, hl⟩
    · simp only [hl, Bool.false_eq_true, if_false, Option.map_eq_some'] at h
      obtain ⟨k, hk, rfl⟩ := h
      obtain ⟨l', h1, h2⟩ := layerIndex_getElem? t ls k hk
      exact ⟨l', by simpa using h1, h2⟩

theorem updateLayer_getElem? (f : Layer → Layer) : ∀ (i : Nat) (p : Packet) (k : Nat),
    (updateLayer f i p)[k]? = if i = k then p[k]?.map f else p[k]?
  | _, [], k => by simp [updateLayer]
  | 0, l :: ls, 0 => by simp [updateLayer]
  | 0, l :: ls, k + 1 => by simp [updateLayer]
  | i + 1, l :: ls, 0 => by simp [updateLayer]
  | i + 1, l :: ls, k + 1 => by
    simp only [updateLayer, List.getElem?_cons_succ, updateLayer_getElem? f i ls k,
      Nat.add_right_cancel_iff]

theorem layerIndex_updateLayer (t : LayerType) (f : Layer → Layer)
    (hf : ∀ l, (f l).hasType t = l.hasType t) : ∀ (i : Nat) (p : Packet),
    layerIndex t (updateLayer f i p) = layerIndex t p
  | _, [] => by simp [updateLayer]
  | 0, l :: ls => by simp [updateLayer, layerIndex, hf]
  | i + 1, l :: ls => by simp [updateLayer, layerIndex, layerIndex_updateLayer t f hf i ls]

theorem storeSrcMAC_hasType (v : HardwareAddr) (t : LayerType) (l : Layer) :
    (storeSrcMAC v l).hasType t = l.hasType t := by
  cases l <;> cases t <;> rfl

theorem storeDstMAC_hasType (v : HardwareAddr) (t : LayerType) (l : Layer) :
    (storeDstMAC v l).hasType t = l.hasType t := by
  cases l <;> cases t <;> rfl

theorem storeVLANIdentifier_hasType (v : Nat) (t : LayerType) (l : Layer) :
    (storeVLANIdentifier v l).hasType t = l.hasType t := by
  cases l <;> cases t <;> rfl

theorem layerIndex_rewritten (t : LayerType) (tag : Nat) (br : HardwareAddr) (v6 : Bool)
    (i j : Nat) (p : Packet) : layerIndex t (rewritten tag br v6 i j p) = layerIndex t p := by
  unfold rewritten
  rw [layerIndex_updateLayer t _ (storeDstMAC_hasType _ t),
    layerIndex_updateLayer t _ (storeSrcMAC_hasType _ t),
    layerIndex_updateLayer t _ (storeVLANIdentifier_hasType _ t)]

theorem layerIndex_readdressed (t : LayerType) (br : HardwareAddr) (v6 : Bool)
    (i : Nat) (p : Packet) : layerIndex t (readdressed br v6 i p) = layerIndex t p := by
  unfold readdressed
  rw [layerIndex_updateLayer t _ (storeDstMAC_hasType _ t),
    layerIndex_updateLayer t _ (storeSrcMAC_hasType _ t)]

theorem ethernet_at (p : Packet) (i : Nat) (h : layerIndex .LayerTypeEthernet p = some i) :
    ∃ s d t, p[i]? = some (.Ethernet s d t) := by
  obtain ⟨l, h1, h2⟩ := layerIndex_getElem? _ p i h
  cases l <;> simp [Layer.hasType] at h2
  exact ⟨_, _, _, h1⟩

theorem dot1q_at (p : Packet) (j : Nat) (h : layerIndex .LayerTypeDot1Q p = some j) :
    ∃ q v, p[j]? = some (.Dot1Q q v) := by
  obtain ⟨l, h1, h2⟩ := layerIndex_getElem? _ p j h
  cases l <;> simp [Layer.hasType] at h2
  exact ⟨_, _, h1⟩

theorem rewritten_ethernet (tag : Nat) (br : HardwareAddr) (v6 : Bool) (i j : Nat) (p : Packet)
    (s d : HardwareAddr) (t : Nat) (h : p[i]? = some (.Ethernet s d t)) :
    (rewritten tag br v6 i j p)[i]? = some (.Ethernet br (multicastMAC v6) t) := by
  unfold rewritten
  simp only [updateLayer_getElem?, if_true, h]
  by_cases hji : j = i <;> simp [hji, storeSrcMAC, storeDstMAC, storeVLANIdentifier]

theorem rewritten_dot1q (tag : Nat) (br : HardwareAddr) (v6 : Bool) (i j : Nat) (p : Packet)
    (q v : Nat) (h : p[j]? = some (.Dot1Q q v)) :
    (rewritten tag br v6 i j p)[j]? = some (.Dot1Q q tag) := by
  unfold rewritten
  simp only [updateLayer_getElem?, if_true, h]
  by_cases hij : i = j <;> simp [hij, storeSrcMAC, storeDstMAC, storeVLANIdentifier]

theorem readdressed_ethernet (br : HardwareAddr) (v6 : Bool) (i : Nat) (p : Packet)
    (s d : HardwareAddr) (t : Nat) (h : p[i]? = some (.Ethernet s d t)) :
    (readdressed br v6 i p)[i]? = some (.Ethernet br (multicastMAC v6) t) := by
  unfold readdressed
  simp [updateLayer_getElem?, h, storeSrcMAC, storeDstMAC]

/-- Writing for one destination and then for another leaves the packet as if only the
second had been written. -/
theorem rewritten_rewritten (a b : Nat) (br : HardwareAddr) (v6 : Bool) (i j : Nat) (p : Packet) :
    rewritten b br v6 i j (rewritten a br v6 i j p) = rewritten b br v6 i j p := by
  apply List.ext_getElem?
  intro k
  unfold rewritten
  simp only [updateLayer_getElem?]
  by_cases hi : i = k <;> by_cases hj : j = k <;> simp only [hi, hj, if_true, if_false] <;>
    cases p[k]? with
    | none => rfl
    | some l => cases l <;> rfl

theorem readdressed_readdressed (br : HardwareAddr) (v6 : Bool) (i : Nat) (p : Packet) :
    readdressed br v6 i (readdressed br v6 i p) = readdressed br v6 i p := by
  apply List.ext_getElem?
  intro k
  unfold readdressed
  simp only [updateLayer_getElem?]
  by_cases hi : i = k
  · simp only [hi, if_true]
    cases p[k]? with
    | none => rfl
    | some l => cases l <;> rfl
  · simp only [hi, if_false]

/-! ## Serialisation -/

theorem SerializeLayers_mem : ∀ (p : Packet), ∀ l ∈ (SerializeLayers p).1, l ∈ p
  | [], l, h => by simp [SerializeLayers] at h
  | x :: xs, l, h => by
    have ih := SerializeLayers_mem xs
    unfold SerializeLayers at h
    cases hr : SerializeLayers xs with
    | mk buf ok =>
      rw [hr] at h ih
      cases ok with
      | false => exact List.mem_cons_of_mem _ (ih l h)
      | true =>
        by_cases hx : x.serializeToOk = true
        · simp only [hx, if_true] at h
          rcases List.mem_cons.mp h with e | m
          · rw [e]; exact List.mem_cons_self _ _
          · exact List.mem_cons_of_mem _ (ih l m)
        · simp only [hx, Bool.false_eq_true, if_false] at h
          exact List.mem_cons_of_mem _ (ih l h)

theorem SerializeLayers_ok : ∀ (p : Packet), (∀ l ∈ p, l.serializeToOk = true) →
    SerializeLayers p = (p, true)
  | [], _ => rfl
  | x :: xs, h => by
    unfold SerializeLayers
    rw [SerializeLayers_ok xs (fun l m => h l (List.mem_cons_of_mem _ m))]
    simp [h x (List.mem_cons_self _ _)]

theorem SerializeLayers_snd : ∀ (p : Packet), (SerializeLayers p).2 = true →
    ∀ l ∈ p, l.serializeToOk = true
  | [], _, l, m => by simp at m
  | x :: xs, h, l, m => by
    unfold SerializeLayers at h
    cases hr : SerializeLayers xs with
    | mk buf ok =>
      rw [hr] at h
      cases ok with
      | false => simp at h
      | true =>
        have ih := SerializeLayers_snd xs (by rw [hr])
        by_cases hx : x.serializeToOk = true
        · rcases List.mem_cons.mp m with e | m
          · rw [e]; exact hx
          · exact ih l m
        · simp [hx] at h

/-- `SerializePacket` returns no error exactly when every layer is serialisable and
serialises. -/
theorem SerializePacket_ok_iff (p : Packet) :
    (SerializePacket p).2 = true
      ↔ ∀ l ∈ p, l.isSerializableLayer = true ∧ l.serializeToOk = true := by
  unfold SerializePacket
  by_cases ha : p.all Layer.isSerializableLayer = true
  · rw [if_pos ha]
    rw [List.all_eq_true] at ha
    constructor
    · intro h l m
      exact ⟨ha l m, SerializeLayers_snd p h l m⟩
    · intro h
      rw [SerializeLayers_ok p (fun l m => (h l m).2)]
  · rw [if_neg ha]
    constructor
    · intro h
      simp at h
    · intro h
      exact absurd (List.all_eq_true.mpr (fun l m => (h l m).1)) ha

/-- Without an error, the buffer holds the whole packet. -/
theorem SerializePacket_eq (p : Packet) (h : (SerializePacket p).2 = true) :
    (SerializePacket p).1 = p := by
  have hall := (SerializePacket_ok_iff p).mp h
  unfold SerializePacket
  rw [if_pos (List.all_eq_true.mpr (fun l m => (hall l m).1)),
    SerializeLayers_ok p (fun l m => (hall l m).2)]

/-- The buffer never holds a layer the packet does not have. -/
theorem SerializePacket_mem (p : Packet) : ∀ l ∈ (SerializePacket p).1, l ∈ p := by
  unfold SerializePacket
  split_ifs
  · exact SerializeLayers_mem p
  · intro l m
    simp at m

theorem mem_updateLayer (f : Layer → Layer) : ∀ (i : Nat) (p : Packet) (x : Layer),
    x ∈ updateLayer f i p → x ∈ p ∨ ∃ l ∈ p, x = f l
  | _, [], x, h => by simp [updateLayer] at h
  | 0, l :: ls, x, h => by
    simp only [updateLayer, List.mem_cons] at h
    rcases h with e | m
    · exact Or.inr ⟨l, List.mem_cons_self _ _, e⟩
    · exact Or.inl (List.mem_cons_of_mem _ m)
  | i + 1, l :: ls, x, h => by
    simp only [updateLayer, List.mem_cons] at h
    rcases h with e | m
    · exact Or.inl (by rw [e]; exact List.mem_cons_self _ _)
    · rcases mem_updateLayer f i ls x m with a | ⟨y, hy, e⟩
      · exact Or.inl (List.mem_cons_of_mem _ a)
      · exact Or.inr ⟨y, List.mem_cons_of_mem _ hy, e⟩

theorem updateLayer_serializes (f : Layer → Layer) (i : Nat) (p : Packet)
    (hf : ∀ l, l.isSerializableLayer = true ∧ l.serializeToOk = true →
      (f l).isSerializableLayer = true ∧ (f l).serializeToOk = true)
    (h : (SerializePacket p).2 = true) : (SerializePacket (updateLayer f i p)).2 = true := by
  rw [SerializePacket_ok_iff] at h ⊢
  intro x hx
  rcases mem_updateLayer f i p x hx with m | ⟨l, m, e⟩
  · exact h x m
  · rw [e]
    exact hf l (h l m)

theorem multicastMAC_length (v6 : Bool) : (multicastMAC v6).length = 6 := by
  cases v6 <;> rfl

theorem storeVLANIdentifier_serializes (tag : Nat) (htag : tag ≤ 4095) (l : Layer)
    (h : l.isSerializableLayer = true ∧ l.serializeToOk = true) :
    (storeVLANIdentifier tag l).isSerializableLayer = true
      ∧ (storeVLANIdentifier tag l).serializeToOk = true := by
  cases l with
  | Dot1Q q v => exact ⟨rfl, by simpa [storeVLANIdentifier, Layer.serializeToOk] using htag⟩
  | Ethernet s d t => exact h
  | IPv4 a => exact h
  | IPv6 a => exact h
  | UDP a b c => exact h
  | Other a b => exact h

theorem storeSrcMAC_serializes (v : HardwareAddr) (hv : v.length = 6) (l : Layer)
    (h : l.isSerializableLayer = true ∧ l.serializeToOk = true) :
    (storeSrcMAC v l).isSerializableLayer = true ∧ (storeSrcMAC v l).serializeToOk = true := by
  cases l with
  | Ethernet s d t =>
    refine ⟨rfl, ?_⟩
    have := h.2
    simp only [Layer.serializeToOk, Bool.and_eq_true, decide_eq_true_eq] at this
    simp [storeSrcMAC, Layer.serializeToOk, this.1, hv]
  | Dot1Q q w => exact h
  | IPv4 a => exact h
  | IPv6 a => exact h
  | UDP a b c => exact h
  | Other a b => exact h

theorem storeDstMAC_serializes (v : HardwareAddr) (hv : v.length = 6) (l : Layer)
    (h : l.isSerializableLayer = true ∧ l.serializeToOk = true) :
    (storeDstMAC v l).isSerializableLayer = true ∧ (storeDstMAC v l).serializeToOk = true := by
  cases l with
  | Ethernet s d t =>
    refine ⟨rfl, ?_⟩
    have := h.2
    simp only [Layer.serializeToOk, Bool.and_eq_true, decide_eq_true_eq] at this
    simp [storeDstMAC, Layer.serializeToOk, this.2, hv]
  | Dot1Q q w => exact h
  | IPv4 a => exact h
  | IPv6 a => exact h
  | UDP a b c => exact h
  | Other a b => exact h

/-- A packet that serialises still does after the three writes, when the reflector MAC
has six bytes and the destination identifier is at most 4095. -/
theorem rewritten_serializes (tag : Nat) (br : HardwareAddr) (v6 : Bool) (i j : Nat)
    (p : Packet) (h : (SerializePacket p).2 = true) (hbr : br.length = 6)
    (htag : tag ≤ 4095) : (SerializePacket (rewritten tag br v6 i j p)).2 = true := by
  unfold rewritten
  exact updateLayer_serializes _ i _ (storeDstMAC_serializes _ (multicastMAC_length v6))
    (updateLayer_serializes _ i _ (storeSrcMAC_serializes br hbr)
      (updateLayer_serializes _ j _ (storeVLANIdentifier_serializes tag htag) h))

theorem readdressed_serializes (br : HardwareAddr) (v6 : Bool) (i : Nat)
    (p : Packet) (h : (SerializePacket p).2 = true) (hbr : br.length = 6) :
    (SerializePacket (readdressed br v6 i p)).2 = true := by
  unfold readdressed
  exact updateLayer_serializes _ i _ (storeDstMAC_serializes _ (multicastMAC_length v6))
    (updateLayer_serializes _ i _ (storeSrcMAC_serializes br hbr) h)

theorem layerIndex_eq_none_iff (t : LayerType) : ∀ (p : Packet),
    layerIndex t p = none ↔ ∀ l ∈ p, l.hasType t = false
  | [] => by simp [layerIndex]
  | x :: xs => by
    unfold layerIndex
    by_cases hx : x.hasType t = true
    · simp [hx]
    · have ih := layerIndex_eq_none_iff t xs
      simp only [hx, Bool.false_eq_true, if_false, Option.map_eq_none', ih, List.mem_cons,
        forall_eq_or_imp]
      simp [hx]

/-- A buffer made from a packet without a layer of type `t` holds no such layer. -/
theorem layerIndex_SerializePacket_none (t : LayerType) (p : Packet)
    (h : layerIndex t p = none) : layerIndex t (SerializePacket p).1 = none := by
  rw [layerIndex_eq_none_iff] at h ⊢
  intro l m
  exact h l (SerializePacket_mem p l m)

/-! ## What `sendBonjourPacket` and the send loops do -/

theorem sendBonjourPacket_layerField (bp : bonjourPacket) (tag : Nat) (br : HardwareAddr)
    (i j : Nat) (hs : bp.srcMAC = some i) (hd : bp.dstMAC = some i)
    (hv : bp.vlanTag = some (.layerField j)) :
    sendBonjourPacket bp tag br
      = some ({ bp with packet := rewritten tag br bp.isIPv6 i j bp.packet },
          { tag := tag, frame := (SerializePacket (rewritten tag br bp.isIPv6 i j bp.packet)).1 }) := by
  simp [sendBonjourPacket, hs, hd, hv, rewritten]

theorem sendBonjourPacket_variable (bp : bonjourPacket) (tag : Nat) (br : HardwareAddr)
    (i v : Nat) (hs : bp.srcMAC = some i) (hd : bp.dstMAC = some i)
    (hv : bp.vlanTag = some (.variable v)) :
    sendBonjourPacket bp tag br
      = some ({ bp with vlanTag := some (.variable tag),
                        packet := readdressed br bp.isIPv6 i bp.packet },
          { tag := tag, frame := (SerializePacket (readdressed br bp.isIPv6 i bp.packet)).1 }) := by
  simp [sendBonjourPacket, hs, hd, hv, readdressed]

theorem sendAll_layerField (br : HardwareAddr) (i j : Nat) : ∀ (tags : List Nat)
    (bp : bonjourPacket), bp.srcMAC = some i → bp.dstMAC = some i →
    bp.vlanTag = some (.layerField j) →
    (sendAll br bp tags).map (fun r => r.2)
      = some (tags.map (fun t =>
          { tag := t, frame := (SerializePacket (rewritten t br bp.isIPv6 i j bp.packet)).1 }))
  | [], bp, _, _, _ => by simp [sendAll]
  | tag :: tags, bp, hs, hd, hv => by
    have ih := sendAll_layerField br i j tags
      { bp with packet := rewritten tag br bp.isIPv6 i j bp.packet } hs hd hv
    simp only [rewritten_rewritten] at ih
    unfold sendAll
    rw [sendBonjourPacket_layerField bp tag br i j hs hd hv]
    obtain ⟨r, hr, hr2⟩ := Option.map_eq_some'.mp ih
    simp only [hr, Option.map_some', hr2, List.map_cons]

theorem sendAll_variable (br : HardwareAddr) (i : Nat) : ∀ (tags : List Nat)
    (bp : bonjourPacket) (v : Nat), bp.srcMAC = some i → bp.dstMAC = some i →
    bp.vlanTag = some (.variable v) →
    (sendAll br bp tags).map (fun r => r.2)
      = some (tags.map (fun t =>
          { tag := t, frame := (SerializePacket (readdressed br bp.isIPv6 i bp.packet)).1 }))
  | [], bp, _, _, _, _ => by simp [sendAll]
  | tag :: tags, bp, v, hs, hd, hv => by
    have ih := sendAll_variable br i tags
      { bp with vlanTag := some (.variable tag), packet := readdressed br bp.isIPv6 i bp.packet }
      tag hs hd rfl
    simp only [readdressed_readdressed] at ih
    unfold sendAll
    rw [sendBonjourPacket_variable bp tag br i v hs hd hv]
    obtain ⟨r, hr, hr2⟩ := Option.map_eq_some'.mp ih
    simp only [hr, Option.map_some', hr2, List.map_cons]

/-! ## What a packet that came through the filter looks like -/

theorem filterPacket_pass (decodeDNS : DNSDecoder) (packet : Packet) (br : HardwareAddr)
    (bp : bonjourPacket) (h : filterPacket decodeDNS packet br = .pass bp) :
    ∃ i s d t, layerIndex .LayerTypeEthernet packet = some i
      ∧ packet[i]? = some (.Ethernet s d t)
      ∧ hardwareAddrString s ≠ hardwareAddrString br
      ∧ (ipString (parseIPLayer packet).1 = "224.0.0.251".toList
          ∨ ipString (parseIPLayer packet).1 = "ff02::fb".toList)
      ∧ (parseUDPLayer packet).1 = 5353
      ∧ bp = { packet := packet
               srcMAC := some i
               dstMAC := some i
               isIPv6 := (parseIPLayer packet).2
               vlanTag := parseVLANTag packet
               isDNSQuery := parseDNSPayload decodeDNS (parseUDPLayer packet).2 } := by
  unfold filterPacket at h
  cases hi : layerIndex .LayerTypeEthernet packet with
  | none => simp [parseEthernetLayer, hi] at h
  | some i =>
    obtain ⟨s, d, t, hl⟩ := ethernet_at packet i hi
    have hload : (parseEthernetLayer packet).1.bind (loadSrcMAC packet) = some s := by
      simp [parseEthernetLayer, hi, loadSrcMAC, hl]
    have hmacs : parseEthernetLayer packet = (some i, some i) := by
      simp [parseEthernetLayer, hi]
    simp only [hload] at h
    split_ifs at h with h1 h2 h3
    rw [hmacs] at h
    simp only [Outcome.pass.injEq] at h
    refine ⟨i, s, d, t, rfl, hl, h1, ?_, not_not.mp h3, h.symm⟩
    by_contra hc
    exact h2 ⟨fun e => hc (Or.inl e), fun e => hc (Or.inr e)⟩

theorem ready_of_pass (decodeDNS : DNSDecoder) (packet : Packet) (br : HardwareAddr)
    (bp : bonjourPacket) (h : filterPacket decodeDNS packet br = .pass bp) :
    ∃ i, Ready (defaultVLANTag bp) i := by
  obtain ⟨i, s, d, t, hi, _, _, _, _, rfl⟩ := filterPacket_pass decodeDNS packet br bp h
  refine ⟨i, ?_⟩
  cases hj : layerIndex .LayerTypeDot1Q packet with
  | none =>
    exact ⟨by simp [defaultVLANTag, parseVLANTag, hj], by simp [defaultVLANTag, parseVLANTag, hj],
      by simpa [defaultVLANTag, parseVLANTag, hj] using hi,
      Or.inr ⟨1, by simp [defaultVLANTag, parseVLANTag, hj], by simp [defaultVLANTag, parseVLANTag, hj]⟩⟩
  | some j =>
    exact ⟨by simp [defaultVLANTag, parseVLANTag, hj], by simp [defaultVLANTag, parseVLANTag, hj],
      by simpa [defaultVLANTag, parseVLANTag, hj] using hi,
      Or.inl ⟨j, by simp [defaultVLANTag, parseVLANTag, hj], by simp [defaultVLANTag, parseVLANTag, hj]⟩⟩

/-! ## Reading the rewritten packet -/

theorem frameVLAN_eq_some (p : Packet) (T : Nat) (h : frameVLAN p = some T) :
    ∃ j q, layerIndex .LayerTypeDot1Q p = some j ∧ p[j]? = some (.Dot1Q q T) := by
  unfold frameVLAN parseVLANTag at h
  cases hj : layerIndex .LayerTypeDot1Q p with
  | none => simp [hj] at h
  | some j =>
    obtain ⟨q, v, hl⟩ := dot1q_at p j hj
    simp only [hj, Option.some_bind, loadUint16, hl, Option.some.injEq] at h
    exact ⟨j, q, rfl, by rw [hl, h]⟩

theorem frameVLAN_rewritten (tag : Nat) (br : HardwareAddr) (v6 : Bool) (i j : Nat) (p : Packet)
    (hj : layerIndex .LayerTypeDot1Q p = some j) :
    frameVLAN (rewritten tag br v6 i j p) = some tag := by
  obtain ⟨q, v, hl⟩ := dot1q_at p j hj
  simp [frameVLAN, parseVLANTag, layerIndex_rewritten, hj, loadUint16,
    rewritten_dot1q tag br v6 i j p q v hl]

theorem frameSrcMAC_rewritten (tag : Nat) (br : HardwareAddr) (v6 : Bool) (i j : Nat) (p : Packet)
    (hi : layerIndex .LayerTypeEthernet p = some i) :
    frameSrcMAC (rewritten tag br v6 i j p) = some br := by
  obtain ⟨s, d, t, hl⟩ := ethernet_at p i hi
  simp [frameSrcMAC, parseEthernetLayer, layerIndex_rewritten, hi, loadSrcMAC,
    rewritten_ethernet tag br v6 i j p s d t hl]

theorem frameDstMAC_rewritten (tag : Nat) (br : HardwareAddr) (v6 : Bool) (i j : Nat) (p : Packet)
    (hi : layerIndex .LayerTypeEthernet p = some i) :
    frameDstMAC (rewritten tag br v6 i j p) = some (multicastMAC v6) := by
  obtain ⟨s, d, t, hl⟩ := ethernet_at p i hi
  simp [frameDstMAC, parseEthernetLayer, layerIndex_rewritten, hi, loadDstMAC,
    rewritten_ethernet tag br v6 i j p s d t hl]

theorem frameVLAN_readdressed (br : HardwareAddr) (v6 : Bool) (i : Nat) (p : Packet)
    (hj : layerIndex .LayerTypeDot1Q p = none) :
    frameVLAN (readdressed br v6 i p) = none := by
  simp [frameVLAN, parseVLANTag, layerIndex_readdressed, hj]

theorem frameSrcMAC_readdressed (br : HardwareAddr) (v6 : Bool) (i : Nat) (p : Packet)
    (hi : layerIndex .LayerTypeEthernet p = some i) :
    frameSrcMAC (readdressed br v6 i p) = some br := by
  obtain ⟨s, d, t, hl⟩ := ethernet_at p i hi
  simp [frameSrcMAC, parseEthernetLayer, layerIndex_readdressed, hi, loadSrcMAC,
    readdressed_ethernet br v6 i p s d t hl]

theorem frameDstMAC_readdressed (br : HardwareAddr) (v6 : Bool) (i : Nat) (p : Packet)
    (hi : layerIndex .LayerTypeEthernet p = some i) :
    frameDstMAC (readdressed br v6 i p) = some (multicastMAC v6) := by
  obtain ⟨s, d, t, hl⟩ := ethernet_at p i hi
  simp [frameDstMAC, parseEthernetLayer, layerIndex_readdressed, hi, loadDstMAC,
    readdressed_ethernet br v6 i p s d t hl]

/-- The emissions of the main loop body for a query that came through the filter with an
802.1Q layer at position `j`: per peer, what the serialiser makes of the rewritten
packet. -/
theorem processPacket_query_tagged (decodeDNS : DNSDecoder) (devices : Devices)
    (poolsMap : PoolsMap) (br : HardwareAddr) (packet : Packet) (bp : bonjourPacket)
    (T : Nat) (L : List Nat)
    (hclass : filterPacket decodeDNS packet br = .pass bp) (hquery : bp.isDNSQuery = true)
    (htag : frameVLAN packet = some T) (hpool : poolsMap T = some L) :
    ∃ i j, layerIndex .LayerTypeEthernet packet = some i
      ∧ layerIndex .LayerTypeDot1Q packet = some j
      ∧ processPacket devices poolsMap br bp = some (L.map (fun t =>
          { tag := t,
            frame := (SerializePacket (rewritten t br (parseIPLayer packet).2 i j packet)).1 })) := by
  obtain ⟨i, s, d, t, hi, hl, _, _, _, rfl⟩ := filterPacket_pass decodeDNS packet br bp hclass
  obtain ⟨j, q, hj, hjl⟩ := frameVLAN_eq_some packet T htag
  refine ⟨i, j, hi, hj, ?_⟩
  simp only at hquery
  have hv : parseVLANTag packet = some (.layerField j) := by simp [parseVLANTag, hj]
  have := sendAll_layerField br i j L
    { packet := packet, srcMAC := some i, dstMAC := some i, isIPv6 := (parseIPLayer packet).2,
      vlanTag := parseVLANTag packet,
      isDNSQuery := parseDNSPayload decodeDNS (parseUDPLayer packet).2 } rfl rfl hv
  simp only [processPacket, defaultVLANTag, hv, hquery, if_true, Option.some_bind, loadUint16, hjl,
    hpool, reduceCtorEq, if_false]
  simpa [hv, hquery] using this

/-- The emissions of the main loop body for any packet that came through the filter. -/
theorem processPacket_classified (decodeDNS : DNSDecoder) (devices : Devices)
    (poolsMap : PoolsMap) (br : HardwareAddr) (packet : Packet) (bp : bonjourPacket)
    (hclass : filterPacket decodeDNS packet br = .pass bp) :
    ∃ i, layerIndex .LayerTypeEthernet packet = some i
      ∧ processPacket devices poolsMap br bp
        = some ((destinations devices poolsMap bp.isDNSQuery packet).map (fun t =>
            { tag := t,
              frame := (SerializePacket (outgoing br (parseIPLayer packet).2 i packet t)).1 })) := by
  obtain ⟨i, s, d, t, hi, hl, _, _, _, rfl⟩ := filterPacket_pass decodeDNS packet br bp hclass
  refine ⟨i, hi, ?_⟩
  have hsrc : frameSrcMAC packet = some s := by
    simp [frameSrcMAC, parseEthernetLayer, hi, loadSrcMAC, hl]
  cases hj : layerIndex .LayerTypeDot1Q packet with
  | none =>
    have hv : parseVLANTag packet = none := by simp [parseVLANTag, hj]
    have hfv : frameVLAN packet = none := by simp [frameVLAN, hv]
    have key := fun (q : Bool) (tags : List Nat) => sendAll_variable br i tags
      { packet := packet, srcMAC := some i, dstMAC := some i, isIPv6 := (parseIPLayer packet).2,
        vlanTag := some (.variable 1), isDNSQuery := q } 1 rfl rfl rfl
    simp only at key
    cases hq : parseDNSPayload decodeDNS (parseUDPLayer packet).2 with
    | true =>
      simp only [processPacket, defaultVLANTag, hv, if_true, Option.some_bind, loadUint16,
        destinations, hfv, Option.getD_none, outgoing, hj, hq]
      cases hp : poolsMap 1 with
      | none => simp
      | some tags => simpa using key true tags
    | false =>
      simp only [processPacket, defaultVLANTag, hv, if_true, Option.some_bind, loadSrcMAC, hl,
        destinations, hsrc, outgoing, hj, hq, Bool.false_eq_true, if_false]
      cases hp : devices (hardwareAddrString s) with
      | none => simp
      | some dv => simpa using key false dv.SharedPools
  | some j =>
    obtain ⟨q, v, hjl⟩ := dot1q_at packet j hj
    have hv : parseVLANTag packet = some (.layerField j) := by simp [parseVLANTag, hj]
    have hfv : frameVLAN packet = some v := by simp [frameVLAN, hv, loadUint16, hjl]
    have key := fun (q : Bool) (tags : List Nat) => sendAll_layerField br i j tags
      { packet := packet, srcMAC := some i, dstMAC := some i, isIPv6 := (parseIPLayer packet).2,
        vlanTag := some (.layerField j), isDNSQuery := q } rfl rfl rfl
    simp only at key
    cases hq : parseDNSPayload decodeDNS (parseUDPLayer packet).2 with
    | true =>
      simp only [processPacket, defaultVLANTag, hv, reduceCtorEq, if_false, if_true,
        Option.some_bind, loadUint16, hjl, destinations, hfv, Option.getD_some, outgoing, hj, hq]
      cases hp : poolsMap v with
      | none => simp
      | some tags => simpa using key true tags
    | false =>
      simp only [processPacket, defaultVLANTag, hv, reduceCtorEq, if_false,
        Option.some_bind, loadSrcMAC, hl, destinations, hsrc, outgoing, hj, hq,
        Bool.false_eq_true]
      cases hp : devices (hardwareAddrString s) with
      | none => simp
      | some dv => simpa using key false dv.SharedPools

/-- The filter on a packet with an Ethernet layer whose source MAC is not the
reflector's: the address and port checks decide. -/
theorem filterPacket_of_other_source (decodeDNS : DNSDecoder) (br : HardwareAddr)
    (packet : Packet) (src : HardwareAddr) (heth : frameSrcMAC packet = some src)
    (hne : src ≠ br) :
    filterPacket decodeDNS packet br
      = if ipString (parseIPLayer packet).1 ≠ "224.0.0.251".toList
            ∧ ipString (parseIPLayer packet).1 ≠ "ff02::fb".toList then .skip
        else if (parseUDPLayer packet).1 ≠ 5353 then .skip
        else .pass
          { packet := packet
            vlanTag := parseVLANTag packet
            srcMAC := (parseEthernetLayer packet).1
            dstMAC := (parseEthernetLayer packet).2
            isIPv6 := (parseIPLayer packet).2
            isDNSQuery := parseDNSPayload decodeDNS (parseUDPLayer packet).2 } := by
  have hload : (parseEthernetLayer packet).1.bind (loadSrcMAC packet) = some src := heth
  have hs : ¬ hardwareAddrString src = hardwareAddrString br :=
    fun e => hne (hardwareAddrString_inj src br e)
  unfold filterPacket
  simp only [hload, hs, if_false]

/-! ## The same frame with a tag -/

theorem firstLayer_nil (t : LayerType) : firstLayer t [] = none := rfl

theorem firstLayer_cons (t : LayerType) (l : Layer) (ls : Packet) :
    firstLayer t (l :: ls) = if l.hasType t then some l else firstLayer t ls := by
  unfold firstLayer
  simp only [layerIndex]
  by_cases h : l.hasType t = true
  · simp [h]
  · simp only [h, Bool.false_eq_true, if_false]
    cases layerIndex t ls <;> simp

theorem parseUDPLayer_eq (p : Packet) :
    parseUDPLayer p = match firstLayer .LayerTypeUDP p with
      | some (.UDP _ dstPort payload) => (dstPort, payload)
      | _ => (0, []) := by
  unfold parseUDPLayer firstLayer
  cases layerIndex .LayerTypeUDP p <;> rfl

theorem parseIPLayer_eq (p : Packet) :
    parseIPLayer p = match firstLayer .LayerTypeIPv6 p, firstLayer .LayerTypeIPv4 p with
      | some (.IPv6 d), _ => (d, true)
      | some (.IPv4 d), _ => (d, true)
      | some _, _ => ([], true)
      | none, some (.IPv4 d) => (d, false)
      | none, some (.IPv6 d) => (d, false)
      | none, _ => ([], false) := by
  unfold parseIPLayer firstLayer dstIPAt
  cases h6 : layerIndex .LayerTypeIPv6 p with
  | some i =>
    simp only [Option.some_bind]
    cases hl : p[i]? with
    | none => exact absurd hl (by
        obtain ⟨l, h1, _⟩ := layerIndex_getElem? _ p i h6
        simp [h1])
    | some l => cases l <;> rfl
  | none =>
    cases h4 : layerIndex .LayerTypeIPv4 p with
    | none => rfl
    | some i =>
      simp only [Option.some_bind, Option.none_bind]
      cases hl : p[i]? with
      | none => exact absurd hl (by
          obtain ⟨l, h1, _⟩ := layerIndex_getElem? _ p i h4
          simp [h1])
      | some l => cases l <;> rfl

theorem frameSrcMAC_eq (p : Packet) :
    frameSrcMAC p = match firstLayer .LayerTypeEthernet p with
      | some (.Ethernet s _ _) => some s
      | _ => none := by
  unfold frameSrcMAC parseEthernetLayer firstLayer loadSrcMAC
  cases layerIndex .LayerTypeEthernet p <;> rfl

theorem frameVLAN_eq (p : Packet) :
    frameVLAN p = match firstLayer .LayerTypeDot1Q p with
      | some (.Dot1Q _ v) => some v
      | _ => none := by
  unfold frameVLAN parseVLANTag firstLayer
  cases layerIndex .LayerTypeDot1Q p <;> rfl

theorem firstLayer_withVLANTag (t : LayerType) (ht : t ≠ .LayerTypeDot1Q)
    (hte : t ≠ .LayerTypeEthernet) (v : Nat) :
    ∀ p : Packet, firstLayer t (withVLANTag v p) = firstLayer t p
  | [] => rfl
  | l :: ls => by
    have ih := firstLayer_withVLANTag t ht hte v ls
    cases l with
    | Ethernet s d e =>
      simp only [withVLANTag, firstLayer_cons]
      cases t <;> first | exact absurd rfl ht | exact absurd rfl hte | rfl
    | Dot1Q q w => simp only [withVLANTag, firstLayer_cons, ih]
    | IPv4 a => simp only [withVLANTag, firstLayer_cons, ih]
    | IPv6 a => simp only [withVLANTag, firstLayer_cons, ih]
    | UDP a b c => simp only [withVLANTag, firstLayer_cons, ih]
    | Other a b => simp only [withVLANTag, firstLayer_cons, ih]

theorem frameSrcMAC_withVLANTag (v : Nat) : ∀ p : Packet,
    frameSrcMAC (withVLANTag v p) = frameSrcMAC p
  | [] => rfl
  | l :: ls => by
    have ih := frameSrcMAC_withVLANTag v ls
    rw [frameSrcMAC_eq, frameSrcMAC_eq] at ih ⊢
    cases l with
    | Ethernet s d e => simp [withVLANTag, firstLayer_cons, Layer.hasType]
    | Dot1Q q w => simpa only [withVLANTag, firstLayer_cons] using ih
    | IPv4 a => simpa only [withVLANTag, firstLayer_cons] using ih
    | IPv6 a => simpa only [withVLANTag, firstLayer_cons] using ih
    | UDP a b c => simpa only [withVLANTag, firstLayer_cons] using ih
    | Other a b => simpa only [withVLANTag, firstLayer_cons] using ih

theorem firstLayer_dot1q_withVLANTag (v : Nat) : ∀ p : Packet,
    firstLayer .LayerTypeDot1Q p = none → firstLayer .LayerTypeEthernet p ≠ none →
    firstLayer .LayerTypeDot1Q (withVLANTag v p) = some (.Dot1Q 0 v)
  | [], _, h => absurd rfl h
  | l :: ls, hq, h => by
    have ih := firstLayer_dot1q_withVLANTag v ls
    rw [firstLayer_cons] at hq h
    cases l with
    | Ethernet s d e => simp [withVLANTag, firstLayer_cons, Layer.hasType]
    | Dot1Q q w => simp [Layer.hasType] at hq
    | IPv4 a =>
      simp only [withVLANTag, firstLayer_cons]
      exact ih (by simpa [Layer.hasType] using hq) (by simpa [Layer.hasType] using h)
    | IPv6 a =>
      simp only [withVLANTag, firstLayer_cons]
      exact ih (by simpa [Layer.hasType] using hq) (by simpa [Layer.hasType] using h)
    | UDP a b c =>
      simp only [withVLANTag, firstLayer_cons]
      exact ih (by simpa [Layer.hasType] using hq) (by simpa [Layer.hasType] using h)
    | Other a b =>
      simp only [withVLANTag, firstLayer_cons]
      exact ih (by simpa [Layer.hasType] using hq) (by simpa [Layer.hasType] using h)

/-- Tagging an untagged frame that comes through the filter gives a frame that comes
through the filter, with the same query flag and with the tag. -/
theorem filterPacket_withVLANTag (decodeDNS : DNSDecoder) (br : HardwareAddr) (packet : Packet)
    (bp : bonjourPacket) (v : Nat) (hclass : filterPacket decodeDNS packet br = .pass bp)
    (huntagged : parseVLANTag packet = none) :
    ∃ bp1, filterPacket decodeDNS (withVLANTag v packet) br = .pass bp1
      ∧ bp1.isDNSQuery = bp.isDNSQuery ∧ bp1.isIPv6 = bp.isIPv6
      ∧ frameVLAN (withVLANTag v packet) = some v
      ∧ frameSrcMAC (withVLANTag v packet) = frameSrcMAC packet := by
  obtain ⟨i, s, d, t, hi, hl, hs, hip, hport, hbp⟩ :=
    filterPacket_pass decodeDNS packet br bp hclass
  have hsrc : frameSrcMAC packet = some s := by
    simp [frameSrcMAC, parseEthernetLayer, hi, loadSrcMAC, hl]
  have h4 : firstLayer .LayerTypeIPv4 (withVLANTag v packet)
      = firstLayer .LayerTypeIPv4 packet :=
    firstLayer_withVLANTag _ (by decide) (by decide) v packet
  have h6 : firstLayer .LayerTypeIPv6 (withVLANTag v packet)
      = firstLayer .LayerTypeIPv6 packet :=
    firstLayer_withVLANTag _ (by decide) (by decide) v packet
  have hU : firstLayer .LayerTypeUDP (withVLANTag v packet)
      = firstLayer .LayerTypeUDP packet :=
    firstLayer_withVLANTag _ (by decide) (by decide) v packet
  have hsrc1 : frameSrcMAC (withVLANTag v packet) = frameSrcMAC packet :=
    frameSrcMAC_withVLANTag v packet
  have hipl : parseIPLayer (withVLANTag v packet) = parseIPLayer packet := by
    rw [parseIPLayer_eq, parseIPLayer_eq, h4, h6]
  have hudp : parseUDPLayer (withVLANTag v packet) = parseUDPLayer packet := by
    rw [parseUDPLayer_eq, parseUDPLayer_eq, hU]
  have hq : firstLayer .LayerTypeDot1Q packet = none := by
    unfold firstLayer
    cases hj : layerIndex .LayerTypeDot1Q packet with
    | none => rfl
    | some j => simp [parseVLANTag, hj] at huntagged
  have he : firstLayer .LayerTypeEthernet packet ≠ none := by
    simp [firstLayer, hi, hl]
  have hvl : frameVLAN (withVLANTag v packet) = some v := by
    rw [frameVLAN_eq, firstLayer_dot1q_withVLANTag v packet hq he]
  have hne : s ≠ br := fun e => hs (by rw [e])
  have h1 : ¬ (ipString (parseIPLayer packet).1 ≠ "224.0.0.251".toList
      ∧ ipString (parseIPLayer packet).1 ≠ "ff02::fb".toList) := by
    rintro ⟨a, b⟩
    rcases hip with e | e
    · exact a e
    · exact b e
  have hf := filterPacket_of_other_source decodeDNS br _ s (hsrc1.trans hsrc) hne
  rw [hipl, hudp, if_neg h1, if_neg (not_not.mpr hport)] at hf
  exact ⟨_, hf, by rw [hbp], by rw [hbp], hvl, hsrc1⟩

/-! ## The forwarding pipeline -/

/-- C1, counterexample: the query tagged 5 is forwarded to the peers 4096 and 20 by two
writes, but the buffer written for 4096 holds no Ethernet header and no tag: the 802.1Q
layer refuses the identifier and the error is discarded. With a reflector MAC of eight
bytes no buffer holds an Ethernet header, and for a frame with a layer that cannot be
serialised the buffers are empty. -/
theorem oversized_identifier_is_not_carried :
    filterPacket decodeDNSHeader taggedQuery reflectorMAC
        = .pass (classified decodeDNSHeader taggedQuery)
      ∧ (classified decodeDNSHeader taggedQuery).isDNSQuery = true
      ∧ frameVLAN taggedQuery = some 5
      ∧ oversizedPools 5 = some [4096, 20]
      ∧ (processPacket exampleDevices oversizedPools reflectorMAC
            (classified decodeDNSHeader taggedQuery)).map
          (fun es => es.map (fun e => (e.tag, frameVLAN e.frame, frameSrcMAC e.frame)))
          = some [(4096, none, none), (20, some 20, some reflectorMAC)]
      ∧ filterPacket decodeDNSHeader taggedQuery longReflectorMAC
          = .pass (classified decodeDNSHeader taggedQuery)
      ∧ (processPacket exampleDevices examplePools longReflectorMAC
            (classified decodeDNSHeader taggedQuery)).map
          (fun es => es.map (fun e => (e.tag, frameSrcMAC e.frame)))
          = some [(10, none), (20, none)]
      ∧ filterPacket decodeDNSHeader unserializableQuery reflectorMAC
          = .pass (classified decodeDNSHeader unserializableQuery)
      ∧ (classified decodeDNSHeader unserializableQuery).isDNSQuery = true
      ∧ frameVLAN unserializableQuery = some 5
      ∧ (processPacket exampleDevices examplePools reflectorMAC
            (classified decodeDNSHeader unserializableQuery)).map
          (fun es => es.map (fun e => (e.tag, e.frame)))
          = some [(10, []), (20, [])] :=
  ⟨by decide, by decide, by decide, by decide, by decide, by decide, by decide, by decide,
    by decide, by decide, by decide⟩

/-- C1, amended. Query fan-out: for a query frame that came through the filter carrying
the 802.1Q tag `T`, with `T` mapped to the peer list `L` in the pool map, the main loop
makes exactly `|L|` writes, the i-th for `L[i]` (two, for `A` then `B`, when
`L = [A, B]`). When gopacket serialises the captured frame without error and the
reflector MAC has six bytes, the frame written for an entry that is at most 4095 is
tagged with that entry, has the reflector MAC as source MAC and has the destination MAC
`33:33:00:00:00:FB` for IPv6 and `01:00:5E:00:00:FB` for IPv4. -/
theorem query_fan_out_in_range (decodeDNS : DNSDecoder) (devices : Devices)
    (poolsMap : PoolsMap) (br : HardwareAddr) (packet : Packet) (bp : bonjourPacket)
    (T : Nat) (L : List Nat)
    (hclass : filterPacket decodeDNS packet br = .pass bp) (hquery : bp.isDNSQuery = true)
    (htag : frameVLAN packet = some T) (hpool : poolsMap T = some L) :
    ∃ es, processPacket devices poolsMap br bp = some es
      ∧ es.length = L.length
      ∧ es.map (fun e => e.tag) = L
      ∧ ((SerializePacket packet).2 = true → br.length = 6 →
          ∀ e ∈ es, e.tag ≤ 4095 →
            frameVLAN e.frame = some e.tag
            ∧ frameSrcMAC e.frame = some br
            ∧ frameDstMAC e.frame
              = some (if (parseIPLayer packet).2 = true
                  then [0x33, 0x33, 0x00, 0x00, 0x00, 0xFB]
                  else [0x01, 0x00, 0x5E, 0x00, 0x00, 0xFB])) := by
  obtain ⟨i, j, hi, hj, hp⟩ :=
    processPacket_query_tagged decodeDNS devices poolsMap br packet bp T L hclass hquery htag hpool
  refine ⟨_, hp, by simp, ?_, ?_⟩
  · simp [List.map_map, Function.comp_def]
  · intro hser hbr e he hle
    obtain ⟨t, _, rfl⟩ := List.mem_map.mp he
    simp only at hle ⊢
    rw [SerializePacket_eq _ (rewritten_serializes t br _ i j packet hser hbr hle)]
    exact ⟨frameVLAN_rewritten t br _ i j packet hj, frameSrcMAC_rewritten t br _ i j packet hi,
      by simpa [multicastMAC] using frameDstMAC_rewritten t br (parseIPLayer packet).2 i j packet hi⟩

/-- The query fan-out on the query tagged 5, whose pool holds the peers 10 and 20: the
frame serialises, the reflector MAC has six bytes and both peers are in range. -/
theorem query_fan_out_in_range_witness :
    filterPacket decodeDNSHeader taggedQuery reflectorMAC
        = .pass (classified decodeDNSHeader taggedQuery)
      ∧ (classified decodeDNSHeader taggedQuery).isDNSQuery = true
      ∧ frameVLAN taggedQuery = some 5
      ∧ examplePools 5 = some [10, 20]
      ∧ (SerializePacket taggedQuery).2 = true
      ∧ reflectorMAC.length = 6
      ∧ ∃ es, processPacket exampleDevices examplePools reflectorMAC
            (classified decodeDNSHeader taggedQuery) = some es
          ∧ es.length = [10, 20].length
          ∧ es.map (fun e => e.tag) = [10, 20]
          ∧ ((SerializePacket taggedQuery).2 = true → reflectorMAC.length = 6 →
              ∀ e ∈ es, e.tag ≤ 4095 →
                frameVLAN e.frame = some e.tag
                ∧ frameSrcMAC e.frame = some reflectorMAC
                ∧ frameDstMAC e.frame
                  = some (if (parseIPLayer taggedQuery).2 = true
                      then [0x33, 0x33, 0x00, 0x00, 0x00, 0xFB]
                      else [0x01, 0x00, 0x5E, 0x00, 0x00, 0xFB])) :=
  ⟨by decide, by decide, by decide, by decide, by decide, by decide,
    query_fan_out_in_range decodeDNSHeader exampleDevices examplePools reflectorMAC taggedQuery
      (classified decodeDNSHeader taggedQuery) 5 [10, 20] (by decide) (by decide) (by decide)
      (by decide)⟩

/-- A packet the filter skips leaves no trace on the channel, wherever it stands in the
capture. -/
theorem filter_skip_middle (decodeDNS : DNSDecoder) (br : HardwareAddr) (packet : Packet)
    (h : filterPacket decodeDNS packet br = .skip) : ∀ (before after : List Packet),
    filterBonjourPacketsLazily decodeDNS br (before ++ packet :: after)
      = filterBonjourPacketsLazily decodeDNS br (before ++ after)
  | [], after => by simp [filterBonjourPacketsLazily, h]
  | p :: before, after => by
    have ih := filter_skip_middle decodeDNS br packet h before after
    rw [List.cons_append, List.cons_append]
    unfold filterBonjourPacketsLazily
    rw [ih]

/-- C3. Loop filter: for a captured frame with an Ethernet layer, the comparison of the
loop check holds exactly when the frame's source MAC is the reflector's MAC; when it
is, the frame is dropped, never reaches the channel and yields no emitted frame under
any pool map and device table, alone or anywhere in a capture; when it is not, the
frame goes on to the address and port checks. -/
theorem loop_filter (decodeDNS : DNSDecoder) (devices : Devices) (poolsMap : PoolsMap)
    (br : HardwareAddr) (packet : Packet) (src : HardwareAddr)
    (heth : frameSrcMAC packet = some src) :
    (hardwareAddrString src = hardwareAddrString br ↔ src = br)
      ∧ (src = br →
          filterPacket decodeDNS packet br = .skip
          ∧ (filterBonjourPacketsLazily decodeDNS br [packet]).1 = []
          ∧ reflect decodeDNS devices poolsMap br [packet] = some []
          ∧ ∀ before after : List Packet,
              reflect decodeDNS devices poolsMap br (before ++ packet :: after)
                = reflect decodeDNS devices poolsMap br (before ++ after))
      ∧ (src ≠ br →
          filterPacket decodeDNS packet br
            = if ipString (parseIPLayer packet).1 ≠ "224.0.0.251".toList
                  ∧ ipString (parseIPLayer packet).1 ≠ "ff02::fb".toList then .skip
              else if (parseUDPLayer packet).1 ≠ 5353 then .skip
              else .pass
                { packet := packet
                  vlanTag := parseVLANTag packet
                  srcMAC := (parseEthernetLayer packet).1
                  dstMAC := (parseEthernetLayer packet).2
                  isIPv6 := (parseIPLayer packet).2
                  isDNSQuery := parseDNSPayload decodeDNS (parseUDPLayer packet).2 }) := by
  have hiff : hardwareAddrString src = hardwareAddrString br ↔ src = br :=
    ⟨hardwareAddrString_inj src br, fun h => by rw [h]⟩
  have hload : (parseEthernetLayer packet).1.bind (loadSrcMAC packet) = some src := heth
  refine ⟨hiff, ?_, ?_⟩
  · intro h
    have hskip : filterPacket decodeDNS packet br = .skip := by
      unfold filterPacket
      simp only [hload, hiff.mpr h, if_true]
    refine ⟨hskip, ?_, ?_, ?_⟩
    · simp [filterBonjourPacketsLazily, hskip]
    · simp [reflect, filterBonjourPacketsLazily, hskip, mainLoop]
    · intro before after
      simp only [reflect, filter_skip_middle decodeDNS br packet hskip before after]
  · intro h
    have hne : ¬ hardwareAddrString src = hardwareAddrString br := fun e => h (hiff.mp e)
    unfold filterPacket
    simp only [hload, hne, if_false]

/-- The loop filter on a frame whose source MAC is the reflector's. -/
theorem loop_filter_witness :
    frameSrcMAC ownFrame = some reflectorMAC
      ∧ ((hardwareAddrString reflectorMAC = hardwareAddrString reflectorMAC ↔ reflectorMAC = reflectorMAC)
      ∧ (reflectorMAC = reflectorMAC →
          filterPacket decodeDNSHeader ownFrame reflectorMAC = .skip
          ∧ (filterBonjourPacketsLazily decodeDNSHeader reflectorMAC [ownFrame]).1 = []
          ∧ reflect decodeDNSHeader exampleDevices examplePools reflectorMAC [ownFrame] = some []
          ∧ ∀ before after : List Packet,
              reflect decodeDNSHeader exampleDevices examplePools reflectorMAC (before ++ ownFrame :: after)
                = reflect decodeDNSHeader exampleDevices examplePools reflectorMAC (before ++ after))
      ∧ (reflectorMAC ≠ reflectorMAC →
          filterPacket decodeDNSHeader ownFrame reflectorMAC
            = if ipString (parseIPLayer ownFrame).1 ≠ "224.0.0.251".toList
                  ∧ ipString (parseIPLayer ownFrame).1 ≠ "ff02::fb".toList then .skip
              else if (parseUDPLayer ownFrame).1 ≠ 5353 then .skip
              else .pass
                { packet := ownFrame
                  vlanTag := parseVLANTag ownFrame
                  srcMAC := (parseEthernetLayer ownFrame).1
                  dstMAC := (parseEthernetLayer ownFrame).2
                  isIPv6 := (parseIPLayer ownFrame).2
                  isDNSQuery := parseDNSPayload decodeDNSHeader (parseUDPLayer ownFrame).2 })) :=
  ⟨by decide, loop_filter decodeDNSHeader exampleDevices examplePools reflectorMAC ownFrame
    reflectorMAC (by decide)⟩

/-- C8. Default VLAN: for an untagged query frame that came through the filter, the
destination identifiers the main loop forwards to are the pool map's entry for 1 (none
when 1 is not a key); the same frame tagged with VLAN identifier 1 comes through the
filter too and is forwarded to exactly the same identifiers, as is any query frame that
came through the filter tagged with VLAN identifier 1. -/
theorem default_vlan (decodeDNS : DNSDecoder) (devices : Devices) (poolsMap : PoolsMap)
    (br : HardwareAddr) (packet : Packet) (bp : bonjourPacket)
    (hclass : filterPacket decodeDNS packet br = .pass bp) (hquery : bp.isDNSQuery = true)
    (huntagged : parseVLANTag packet = none) :
    ∃ es, processPacket devices poolsMap br bp = some es
      ∧ es.map (fun e => e.tag) = (poolsMap 1).getD []
      ∧ (∃ bp1 es1, filterPacket decodeDNS (withVLANTag 1 packet) br = .pass bp1
          ∧ bp1.isDNSQuery = true
          ∧ frameVLAN (withVLANTag 1 packet) = some 1
          ∧ processPacket devices poolsMap br bp1 = some es1
          ∧ es1.map (fun e => e.tag) = es.map (fun e => e.tag))
      ∧ ∀ (decodeDNS1 : DNSDecoder) (packet1 : Packet) (bp1 : bonjourPacket),
          filterPacket decodeDNS1 packet1 br = .pass bp1 → bp1.isDNSQuery = true →
          frameVLAN packet1 = some 1 →
          ∃ es1, processPacket devices poolsMap br bp1 = some es1
            ∧ es1.map (fun e => e.tag) = es.map (fun e => e.tag) := by
  obtain ⟨i, _, hp⟩ := processPacket_classified decodeDNS devices poolsMap br packet bp hclass
  have hfv : frameVLAN packet = none := by simp [frameVLAN, huntagged]
  have htags : ∀ f : Nat → Packet,
      (List.map (fun t => ({ tag := t, frame := f t } : Emission))
        (destinations devices poolsMap bp.isDNSQuery packet)).map (fun e => e.tag)
        = (poolsMap 1).getD [] := by
    intro f
    simp [List.map_map, Function.comp_def, destinations, hquery, hfv]
  have hall : ∀ (decodeDNS1 : DNSDecoder) (packet1 : Packet) (bp1 : bonjourPacket),
      filterPacket decodeDNS1 packet1 br = .pass bp1 → bp1.isDNSQuery = true →
      frameVLAN packet1 = some 1 →
      ∃ es1, processPacket devices poolsMap br bp1 = some es1
        ∧ es1.map (fun e => e.tag) = (poolsMap 1).getD [] := by
    intro decodeDNS1 packet1 bp1 hclass1 hquery1 htag1
    obtain ⟨i1, _, hp1⟩ :=
      processPacket_classified decodeDNS1 devices poolsMap br packet1 bp1 hclass1
    refine ⟨_, hp1, ?_⟩
    simp [List.map_map, Function.comp_def, destinations, hquery1, htag1]
  refine ⟨_, hp, htags _, ?_, ?_⟩
  · obtain ⟨bp1, hf1, hq1, _, hv1, _⟩ :=
      filterPacket_withVLANTag decodeDNS br packet bp 1 hclass huntagged
    obtain ⟨es1, hp1, ht1⟩ := hall decodeDNS _ bp1 hf1 (hq1.trans hquery) hv1
    exact ⟨bp1, es1, hf1, hq1.trans hquery, hv1, hp1, ht1.trans (htags _).symm⟩
  · intro decodeDNS1 packet1 bp1 hclass1 hquery1 htag1
    obtain ⟨es1, hp1, ht1⟩ := hall decodeDNS1 packet1 bp1 hclass1 hquery1 htag1
    exact ⟨es1, hp1, ht1.trans (htags _).symm⟩

/-- The default VLAN on the untagged query and on its copy tagged 1. -/
theorem default_vlan_witness :
    filterPacket decodeDNSHeader untaggedQuery reflectorMAC
        = .pass (classified decodeDNSHeader untaggedQuery)
      ∧ (classified decodeDNSHeader untaggedQuery).isDNSQuery = true
      ∧ parseVLANTag untaggedQuery = none
      ∧ withVLANTag 1 untaggedQuery = queryOnVLAN1
      ∧ ∃ es, processPacket exampleDevices examplePools reflectorMAC
            (classified decodeDNSHeader untaggedQuery) = some es
          ∧ es.map (fun e => e.tag) = (examplePools 1).getD []
          ∧ (∃ bp1 es1, filterPacket decodeDNSHeader (withVLANTag 1 untaggedQuery) reflectorMAC
                = .pass bp1
              ∧ bp1.isDNSQuery = true
              ∧ frameVLAN (withVLANTag 1 untaggedQuery) = some 1
              ∧ processPacket exampleDevices examplePools reflectorMAC bp1 = some es1
              ∧ es1.map (fun e => e.tag) = es.map (fun e => e.tag))
          ∧ ∀ (decodeDNS1 : DNSDecoder) (packet1 : Packet) (bp1 : bonjourPacket),
              filterPacket decodeDNS1 packet1 reflectorMAC = .pass bp1 → bp1.isDNSQuery = true →
              frameVLAN packet1 = some 1 →
              ∃ es1, processPacket exampleDevices examplePools reflectorMAC bp1 = some es1
                ∧ es1.map (fun e => e.tag) = es.map (fun e => e.tag) :=
  ⟨by decide, by decide, by decide, by decide,
    default_vlan decodeDNSHeader exampleDevices examplePools reflectorMAC untaggedQuery
      (classified decodeDNSHeader untaggedQuery) (by decide) (by decide) (by decide)⟩

/-- C10. Unknown means silent empty result: for a query frame that came through the
filter whose VLAN identifier (1 without a tag) is not a key of the pool map, and for a
response frame that came through the filter whose source MAC is not a key of the device
table, the main loop body emits nothing and does not fail, and the main loop carries on
with the frames that follow. -/
theorem unknown_is_silent (decodeDNS : DNSDecoder) (devices : Devices) (poolsMap : PoolsMap)
    (br : HardwareAddr) (packet : Packet) (bp : bonjourPacket) (rest : List bonjourPacket)
    (hclass : filterPacket decodeDNS packet br = .pass bp)
    (hunknown : (bp.isDNSQuery = true ∧ poolsMap ((frameVLAN packet).getD 1) = none)
      ∨ (bp.isDNSQuery = false
          ∧ ∃ src, frameSrcMAC packet = some src ∧ devices (hardwareAddrString src) = none)) :
    processPacket devices poolsMap br bp = some []
      ∧ mainLoop devices poolsMap br (bp :: rest) = mainLoop devices poolsMap br rest := by
  obtain ⟨i, _, hp⟩ := processPacket_classified decodeDNS devices poolsMap br packet bp hclass
  have hd : destinations devices poolsMap bp.isDNSQuery packet = [] := by
    rcases hunknown with ⟨hq, hn⟩ | ⟨hq, src, hs, hn⟩
    · simp [destinations, hq, hn]
    · simp [destinations, hq, hs, hn]
  have hnil : processPacket devices poolsMap br bp = some [] := by
    rw [hp, hd]
    rfl
  refine ⟨hnil, ?_⟩
  simp only [mainLoop, hnil, List.nil_append]
  cases mainLoop devices poolsMap br rest <;> rfl

/-- The silent empty result on a response from a device the table does not hold. -/
theorem unknown_is_silent_witness :
    filterPacket decodeDNSHeader taggedResponse reflectorMAC
        = .pass (classified decodeDNSHeader taggedResponse)
      ∧ ((classified decodeDNSHeader taggedResponse).isDNSQuery = true
            ∧ examplePools ((frameVLAN taggedResponse).getD 1) = none
          ∨ (classified decodeDNSHeader taggedResponse).isDNSQuery = false
            ∧ ∃ src, frameSrcMAC taggedResponse = some src
                ∧ noDevices (hardwareAddrString src) = none)
      ∧ processPacket noDevices examplePools reflectorMAC
            (classified decodeDNSHeader taggedResponse) = some []
      ∧ mainLoop noDevices examplePools reflectorMAC
            [classified decodeDNSHeader taggedResponse, classified decodeDNSHeader taggedQuery]
          = mainLoop noDevices examplePools reflectorMAC [classified decodeDNSHeader taggedQuery] :=
  ⟨by decide, Or.inr ⟨by decide, deviceMAC, by decide, rfl⟩,
    unknown_is_silent decodeDNSHeader noDevices examplePools reflectorMAC taggedResponse
      (classified decodeDNSHeader taggedResponse) [classified decodeDNSHeader taggedQuery]
      (by decide) (Or.inr ⟨by decide, deviceMAC, by decide, rfl⟩)⟩

/-! ## The rewriter -/

theorem layerIndex_outgoing (t : LayerType) (br : HardwareAddr) (v6 : Bool) (i : Nat)
    (p : Packet) (tag : Nat) : layerIndex t (outgoing br v6 i p tag) = layerIndex t p := by
  unfold outgoing
  cases layerIndex .LayerTypeDot1Q p with
  | none => exact layerIndex_readdressed t br v6 i p
  | some j => exact layerIndex_rewritten t tag br v6 i j p

theorem outgoing_of_none (br : HardwareAddr) (v6 : Bool) (i : Nat) (p : Packet) (c : Nat)
    (h : layerIndex .LayerTypeDot1Q p = none) :
    outgoing br v6 i p c = readdressed br v6 i p := by
  simp [outgoing, h]

theorem outgoing_of_some (br : HardwareAddr) (v6 : Bool) (i j : Nat) (p : Packet) (c : Nat)
    (h : layerIndex .LayerTypeDot1Q p = some j) :
    outgoing br v6 i p c = rewritten c br v6 i j p := by
  simp [outgoing, h]

theorem outgoing_outgoing (br : HardwareAddr) (v6 : Bool) (i : Nat) (p : Packet) (a b : Nat) :
    outgoing br v6 i (outgoing br v6 i p a) b = outgoing br v6 i p b := by
  have h := layerIndex_outgoing .LayerTypeDot1Q br v6 i p a
  cases hj : layerIndex .LayerTypeDot1Q p with
  | none =>
    rw [hj] at h
    rw [outgoing_of_none br v6 i _ b h, outgoing_of_none br v6 i p a hj,
      outgoing_of_none br v6 i p b hj, readdressed_readdressed]
  | some j =>
    rw [hj] at h
    rw [outgoing_of_some br v6 i j _ b h, outgoing_of_some br v6 i j p a hj,
      outgoing_of_some br v6 i j p b hj, rewritten_rewritten]

theorem frameSrcMAC_outgoing (br : HardwareAddr) (v6 : Bool) (i : Nat) (p : Packet) (tag : Nat)
    (hi : layerIndex .LayerTypeEthernet p = some i) :
    frameSrcMAC (outgoing br v6 i p tag) = some br := by
  unfold outgoing
  cases layerIndex .LayerTypeDot1Q p with
  | none => exact frameSrcMAC_readdressed br v6 i p hi
  | some j => exact frameSrcMAC_rewritten tag br v6 i j p hi

theorem frameDstMAC_outgoing (br : HardwareAddr) (v6 : Bool) (i : Nat) (p : Packet) (tag : Nat)
    (hi : layerIndex .LayerTypeEthernet p = some i) :
    frameDstMAC (outgoing br v6 i p tag) = some (multicastMAC v6) := by
  unfold outgoing
  cases layerIndex .LayerTypeDot1Q p with
  | none => exact frameDstMAC_readdressed br v6 i p hi
  | some j => exact frameDstMAC_rewritten tag br v6 i j p hi

theorem frameVLAN_outgoing (br : HardwareAddr) (v6 : Bool) (i : Nat) (p : Packet) (tag : Nat) :
    frameVLAN (outgoing br v6 i p tag)
      = if layerIndex .LayerTypeDot1Q p = none then none else some tag := by
  unfold outgoing
  cases hj : layerIndex .LayerTypeDot1Q p with
  | none => simpa using frameVLAN_readdressed br v6 i p hj
  | some j => simpa using frameVLAN_rewritten tag br v6 i j p hj

/-- A packet that serialises still does after the writes of the main loop, when the
reflector MAC has six bytes and the destination identifier is at most 4095. -/
theorem outgoing_serializes (br : HardwareAddr) (v6 : Bool) (i : Nat) (p : Packet) (tag : Nat)
    (h : (SerializePacket p).2 = true) (hbr : br.length = 6) (htag : tag ≤ 4095) :
    (SerializePacket (outgoing br v6 i p tag)).2 = true := by
  unfold outgoing
  cases layerIndex .LayerTypeDot1Q p with
  | none => exact readdressed_serializes br v6 i p h hbr
  | some j => exact rewritten_serializes tag br v6 i j p h hbr htag

/-- One call of `sendBonjourPacket` in the main loop: it succeeds, the buffer written is
what the serialiser makes of the caller's packet after the writes, and the caller's
`bonjourPacket` is ready for the next call, its pointers pointing where they did. -/
theorem sendBonjourPacket_ready (bp : bonjourPacket) (i : Nat) (tag : Nat) (br : HardwareAddr)
    (h : Ready bp i) :
    ∃ bp1, sendBonjourPacket bp tag br
          = some (bp1,
              { tag := tag, frame := (SerializePacket (outgoing br bp.isIPv6 i bp.packet tag)).1 })
      ∧ bp1.packet = outgoing br bp.isIPv6 i bp.packet tag
      ∧ Ready bp1 i
      ∧ bp1.isIPv6 = bp.isIPv6 ∧ bp1.isDNSQuery = bp.isDNSQuery
      ∧ bp1.srcMAC = bp.srcMAC ∧ bp1.dstMAC = bp.dstMAC
      ∧ bp1.vlanTag.map Uint16Ptr.address = bp.vlanTag.map Uint16Ptr.address
      ∧ bp1.vlanTag.bind (loadUint16 bp1.packet) = some tag := by
  obtain ⟨hs, hd, he, ht⟩ := h
  rcases ht with ⟨j, hv, hj⟩ | ⟨v, hv, hj⟩
  · obtain ⟨q, w, hjl⟩ := dot1q_at bp.packet j hj
    have ho : outgoing br bp.isIPv6 i bp.packet tag = rewritten tag br bp.isIPv6 i j bp.packet := by
      simp [outgoing, hj]
    refine ⟨{ bp with packet := rewritten tag br bp.isIPv6 i j bp.packet }, ?_, ho.symm,
      ⟨hs, hd, ?_, Or.inl ⟨j, hv, ?_⟩⟩, rfl, rfl, rfl, rfl, rfl, ?_⟩
    · rw [ho]
      exact sendBonjourPacket_layerField bp tag br i j hs hd hv
    · simpa [layerIndex_rewritten] using he
    · simpa [layerIndex_rewritten] using hj
    · simp [hv, loadUint16, rewritten_dot1q tag br bp.isIPv6 i j bp.packet q w hjl]
  · have ho : outgoing br bp.isIPv6 i bp.packet tag = readdressed br bp.isIPv6 i bp.packet := by
      simp [outgoing, hj]
    refine ⟨{ bp with vlanTag := some (.variable tag),
                      packet := readdressed br bp.isIPv6 i bp.packet }, ?_, ho.symm,
      ⟨hs, hd, ?_, Or.inr ⟨tag, rfl, ?_⟩⟩, rfl, rfl, rfl, rfl, ?_, ?_⟩
    · rw [ho]
      exact sendBonjourPacket_variable bp tag br i v hs hd hv
    · simpa [layerIndex_readdressed] using he
    · simpa [layerIndex_readdressed] using hj
    · simp [hv, Uint16Ptr.address]
    · simp [loadUint16]

/-- Rewriting a frame for `A` and then for `B` writes, for `B`, the buffer that rewriting
for `B` alone writes. When gopacket serialises the captured frame without error, the
reflector MAC has six bytes and `B` is at most 4095, that buffer is a frame with the
reflector MAC as source, the multicast MAC as destination and, when the frame arrived
tagged, the tag `B`. -/
theorem rewrite_order_independent (decodeDNS : DNSDecoder) (br : HardwareAddr)
    (packet : Packet) (bp : bonjourPacket) (A B : Nat)
    (hclass : filterPacket decodeDNS packet br = .pass bp) :
    ∃ bpA eA bpAB eAB bpB eB,
      sendBonjourPacket (defaultVLANTag bp) A br = some (bpA, eA)
      ∧ sendBonjourPacket bpA B br = some (bpAB, eAB)
      ∧ sendBonjourPacket (defaultVLANTag bp) B br = some (bpB, eB)
      ∧ eAB = eB
      ∧ ((SerializePacket packet).2 = true → br.length = 6 → B ≤ 4095 →
          frameSrcMAC eB.frame = some br
          ∧ frameDstMAC eB.frame = some (multicastMAC bp.isIPv6)
          ∧ (parseVLANTag packet ≠ none → frameVLAN eB.frame = some B)) := by
  obtain ⟨i, hr⟩ := ready_of_pass decodeDNS packet br bp hclass
  obtain ⟨k, _, _, _, hk, _, _, _, _, hbp⟩ := filterPacket_pass decodeDNS packet br bp hclass
  have hpk : (defaultVLANTag bp).packet = packet := by
    rw [hbp]; unfold defaultVLANTag; split <;> rfl
  have hv6 : (defaultVLANTag bp).isIPv6 = bp.isIPv6 := by
    unfold defaultVLANTag; split <;> rfl
  have hi : layerIndex .LayerTypeEthernet packet = some i := by
    have := hr.eth
    rwa [hpk] at this
  obtain ⟨bpA, hA, hApk, hAr, hA6, _⟩ := sendBonjourPacket_ready _ i A br hr
  obtain ⟨bpAB, hAB, _⟩ := sendBonjourPacket_ready bpA i B br hAr
  obtain ⟨bpB, hB, _⟩ := sendBonjourPacket_ready _ i B br hr
  refine ⟨bpA, _, bpAB, _, bpB, _, hA, hAB, hB, ?_, ?_⟩
  · rw [hApk, hA6, outgoing_outgoing]
  · intro hser hbr hle
    simp only
    rw [hpk, hv6, SerializePacket_eq _ (outgoing_serializes br _ i packet B hser hbr hle)]
    refine ⟨frameSrcMAC_outgoing br _ i packet B hi, frameDstMAC_outgoing br _ i packet B hi, ?_⟩
    intro hne
    simp only [frameVLAN_outgoing]
    have : layerIndex .LayerTypeDot1Q packet ≠ none := by
      intro hn
      exact hne (by simp [parseVLANTag, hn])
    simp [this]

/-- Nothing reaches the channel unless the destination address prints as one of the two
mDNS groups and the UDP destination port is 5353. -/
theorem filterPacket_rejects (decodeDNS : DNSDecoder) (br : HardwareAddr) (packet : Packet)
    (h : (ipString (parseIPLayer packet).1 ≠ "224.0.0.251".toList
          ∧ ipString (parseIPLayer packet).1 ≠ "ff02::fb".toList)
        ∨ (parseUDPLayer packet).1 ≠ 5353) (bp : bonjourPacket) :
    filterPacket decodeDNS packet br ≠ .pass bp := by
  intro hp
  obtain ⟨_, _, _, _, _, _, _, hip, hport, _⟩ := filterPacket_pass decodeDNS packet br bp hp
  rcases h with ⟨h1, h2⟩ | h3
  · rcases hip with e | e
    · exact h1 e
    · exact h2 e
  · exact h3 hport

/-- The frames that reach the channel, exactly: those with an Ethernet layer whose source
MAC is not the reflector's, whose UDP destination port is 5353 and whose destination
address is the IPv4 address 224.0.0.251, the IPv6 address ff02::fb, or the IPv4-mapped
IPv6 address `::ffff:224.0.0.251`. -/
theorem filterPacket_pass_iff (decodeDNS : DNSDecoder) (br : HardwareAddr) (packet : Packet)
    (src : HardwareAddr) (heth : frameSrcMAC packet = some src) :
    (∃ bp, filterPacket decodeDNS packet br = .pass bp) ↔
      src ≠ br
      ∧ ((parseIPLayer packet).1 = [224, 0, 0, 251]
        ∨ (parseIPLayer packet).1 = [0xff, 0x02, 0, 0, 0, 0, 0, 0, 0, 0, 0, 0, 0, 0, 0, 0xfb]
        ∨ (parseIPLayer packet).1 = [0, 0, 0, 0, 0, 0, 0, 0, 0, 0, 0xff, 0xff, 224, 0, 0, 251])
      ∧ (parseUDPLayer packet).1 = 5353 := by
  obtain ⟨h1, h2⟩ := ipString_mdns (parseIPLayer packet).1
  constructor
  · rintro ⟨bp, hp⟩
    obtain ⟨i, s, d, t, hi, hl, hs, hip, hport, _⟩ := filterPacket_pass decodeDNS packet br bp hp
    have hsrc : frameSrcMAC packet = some s := by
      simp [frameSrcMAC, parseEthernetLayer, hi, loadSrcMAC, hl]
    rw [heth, Option.some.injEq] at hsrc
    refine ⟨fun e => hs (by rw [← hsrc, e]), ?_, hport⟩
    rcases hip with e | e
    · rcases h1.mp e with a | a
      · exact Or.inl a
      · exact Or.inr (Or.inr a)
    · exact Or.inr (Or.inl (h2.mp e))
  · rintro ⟨hne, hip, hport⟩
    rw [filterPacket_of_other_source decodeDNS br packet src heth hne]
    have hc : ¬ (ipString (parseIPLayer packet).1 ≠ "224.0.0.251".toList
        ∧ ipString (parseIPLayer packet).1 ≠ "ff02::fb".toList) := by
      rintro ⟨a, b⟩
      rcases hip with e | e | e
      · exact a (h1.mpr (Or.inl e))
      · exact b (h2.mpr e)
      · exact a (h1.mpr (Or.inr e))
    rw [if_neg hc, if_neg (not_not.mpr hport)]
    exact ⟨_, rfl⟩

/-- C2, at the failing input: a frame whose IPv6 destination is the IPv4-mapped address
`::ffff:224.0.0.251`, which is neither the IPv4 address 224.0.0.251 nor ff02::fb, sent
to UDP port 5353, is put on the channel (as an IPv6 frame) and forwarded, because its
destination prints as `224.0.0.251`. -/
theorem ipv4_mapped_destination_passes :
    parseIPLayer mappedQuery = ([0, 0, 0, 0, 0, 0, 0, 0, 0, 0, 0xff, 0xff, 224, 0, 0, 251], true)
      ∧ ipString (parseIPLayer mappedQuery).1 = "224.0.0.251".toList
      ∧ filterPacket decodeDNSHeader mappedQuery reflectorMAC
          = .pass (classified decodeDNSHeader mappedQuery)
      ∧ (classified decodeDNSHeader mappedQuery).isIPv6 = true
      ∧ (reflect decodeDNSHeader exampleDevices examplePools reflectorMAC [mappedQuery]).map
          (fun es => es.map (fun e => e.tag)) = some [30] := by
  decide

/-- A response frame that came through the filter tagged, from a device of the device
table: one write per entry of the device's `SharedPools`, in order; when gopacket
serialises the captured frame without error and the reflector MAC has six bytes, the
frame written for an entry that is at most 4095 is tagged with that entry and has the
reflector MAC as source and the multicast MAC as destination. -/
theorem response_fan_out_tagged (decodeDNS : DNSDecoder) (devices : Devices)
    (poolsMap : PoolsMap) (br : HardwareAddr) (packet : Packet) (bp : bonjourPacket)
    (src : HardwareAddr) (device : brDevice) (T : Nat)
    (hclass : filterPacket decodeDNS packet br = .pass bp) (hresp : bp.isDNSQuery = false)
    (hsrc : frameSrcMAC packet = some src)
    (hdev : devices (hardwareAddrString src) = some device)
    (htag : frameVLAN packet = some T) :
    ∃ es, processPacket devices poolsMap br bp = some es
      ∧ es.map (fun e => e.tag) = device.SharedPools
      ∧ ((SerializePacket packet).2 = true → br.length = 6 →
          ∀ e ∈ es, e.tag ≤ 4095 →
            frameVLAN e.frame = some e.tag
            ∧ frameSrcMAC e.frame = some br
            ∧ frameDstMAC e.frame = some (multicastMAC (parseIPLayer packet).2)) := by
  obtain ⟨i, hi, hp⟩ := processPacket_classified decodeDNS devices poolsMap br packet bp hclass
  obtain ⟨j, q, hj, _⟩ := frameVLAN_eq_some packet T htag
  have hd : destinations devices poolsMap bp.isDNSQuery packet = device.SharedPools := by
    simp [destinations, hresp, hsrc, hdev]
  rw [hd] at hp
  refine ⟨_, hp, ?_, ?_⟩
  · simp [List.map_map, Function.comp_def]
  · intro hser hbr e he hle
    obtain ⟨t, _, rfl⟩ := List.mem_map.mp he
    simp only at hle ⊢
    rw [SerializePacket_eq _ (outgoing_serializes br _ i packet t hser hbr hle)]
    exact ⟨by simp [frameVLAN_outgoing, hj], frameSrcMAC_outgoing br _ i packet t hi,
      frameDstMAC_outgoing br _ i packet t hi⟩

/-- A frame that came through the filter without an 802.1Q layer leaves without one,
whatever the destination: no buffer the main loop body writes for it holds a tag. -/
theorem untagged_stays_untagged (decodeDNS : DNSDecoder) (devices : Devices)
    (poolsMap : PoolsMap) (br : HardwareAddr) (packet : Packet) (bp : bonjourPacket)
    (hclass : filterPacket decodeDNS packet br = .pass bp)
    (huntagged : parseVLANTag packet = none) :
    ∃ es, processPacket devices poolsMap br bp = some es
      ∧ ∀ e ∈ es, frameVLAN e.frame = none := by
  obtain ⟨i, hi, hp⟩ := processPacket_classified decodeDNS devices poolsMap br packet bp hclass
  refine ⟨_, hp, ?_⟩
  intro e he
  obtain ⟨t, _, rfl⟩ := List.mem_map.mp he
  have hj : layerIndex .LayerTypeDot1Q packet = none := by
    cases h : layerIndex .LayerTypeDot1Q packet with
    | none => rfl
    | some j => simp [parseVLANTag, h] at huntagged
  have hb := layerIndex_SerializePacket_none .LayerTypeDot1Q
    (outgoing br (parseIPLayer packet).2 i packet t)
    (by rw [layerIndex_outgoing]; exact hj)
  simp [frameVLAN, parseVLANTag, hb]

/-- C4, at the failing input: an untagged response from a device whose allow-list is
`[10]` makes the main loop emit exactly one frame, for destination 10, but the frame
carries no VLAN tag. -/
theorem untagged_response_leaves_untagged :
    filterPacket decodeDNSHeader untaggedResponse reflectorMAC
        = .pass (classified decodeDNSHeader untaggedResponse)
      ∧ (classified decodeDNSHeader untaggedResponse).isDNSQuery = false
      ∧ frameSrcMAC untaggedResponse = some deviceMAC
      ∧ exampleDevices (hardwareAddrString deviceMAC) = some { SharedPools := [10] }
      ∧ (processPacket exampleDevices examplePools reflectorMAC
            (classified decodeDNSHeader untaggedResponse)).map
          (fun es => es.map (fun e => (e.tag, frameVLAN e.frame))) = some [(10, none)] := by
  decide

/-- C5, at the failing input: for the untagged query and destination 10,
`sendBonjourPacket` writes a frame without any 802.1Q layer; the identifier 10 ends up
in the variable made at `main.go:55`, outside the packet. -/
theorem no_tag_is_inserted :
    filterPacket decodeDNSHeader untaggedQuery reflectorMAC
        = .pass (classified decodeDNSHeader untaggedQuery)
      ∧ parseVLANTag untaggedQuery = none
      ∧ (sendBonjourPacket (defaultVLANTag (classified decodeDNSHeader untaggedQuery)) 10
            reflectorMAC).map (fun r => (frameVLAN r.2.frame, parseVLANTag r.2.frame, r.1.vlanTag))
          = some (none, none, some (.variable 10))
      ∧ (sendBonjourPacket (defaultVLANTag (classified decodeDNSHeader untaggedQuery)) 10
            reflectorMAC).map (fun r => r.2.frame)
          = some [.Ethernet reflectorMAC [0x01, 0x00, 0x5e, 0x00, 0x00, 0xfb] 0x0800,
              .IPv4 [224, 0, 0, 251], .UDP 5353 5353 queryPayload] := by
  decide

/-- C7, at the failing input: for the untagged query, the frame written for 20 after the
frame was rewritten for 10 equals the frame written for 20 first, with the reflector
source MAC and the multicast destination MAC, but it does not carry the tag 20: it
carries no tag. -/
theorem second_destination_leaves_untagged :
    filterPacket decodeDNSHeader untaggedQuery reflectorMAC
        = .pass (classified decodeDNSHeader untaggedQuery)
      ∧ ((sendBonjourPacket (defaultVLANTag (classified decodeDNSHeader untaggedQuery)) 10
            reflectorMAC).bind (fun r => sendBonjourPacket r.1 20 reflectorMAC)).map (fun r => r.2)
          = (sendBonjourPacket (defaultVLANTag (classified decodeDNSHeader untaggedQuery)) 20
              reflectorMAC).map (fun r => r.2)
      ∧ (sendBonjourPacket (defaultVLANTag (classified decodeDNSHeader untaggedQuery)) 20
            reflectorMAC).map
          (fun r => (frameVLAN r.2.frame, frameSrcMAC r.2.frame, frameDstMAC r.2.frame))
          = some (none, some reflectorMAC, some [0x01, 0x00, 0x5E, 0x00, 0x00, 0xFB]) := by
  decide

/-- C6, counterexample: for the tagged response and destination 10, the frame's VLAN
tag, source MAC and destination MAC after `sendBonjourPacket` all differ from what
they were before the call, and so does the parsed packet; the frame written is that
mutated packet. -/
theorem rewriter_mutates_its_input :
    filterPacket decodeDNSHeader taggedResponse reflectorMAC
        = .pass (classified decodeDNSHeader taggedResponse)
      ∧ (frameVLAN taggedResponse, frameSrcMAC taggedResponse, frameDstMAC taggedResponse)
          = (some 7, some deviceMAC, some [0x02, 0x00, 0x00, 0x00, 0x00, 0x09])
      ∧ (sendBonjourPacket (defaultVLANTag (classified decodeDNSHeader taggedResponse)) 10
            reflectorMAC).map
          (fun r => (frameVLAN r.1.packet, frameSrcMAC r.1.packet, frameDstMAC r.1.packet))
          = some (some 10, some reflectorMAC, some [0x33, 0x33, 0x00, 0x00, 0x00, 0xFB])
      ∧ (sendBonjourPacket (defaultVLANTag (classified decodeDNSHeader taggedResponse)) 10
            reflectorMAC).map (fun r => decide (r.1.packet = taggedResponse)) = some false
      ∧ (sendBonjourPacket (defaultVLANTag (classified decodeDNSHeader taggedResponse)) 10
            reflectorMAC).map (fun r => decide (r.2.frame = r.1.packet)) = some true := by
  decide

/-- C6, amended: `sendBonjourPacket` writes through the frame's pointers. For a frame
that came through the filter (after the default of `main.go:54-56`), any destination
identifier and the reflector MAC, the call succeeds, and afterwards the frame's VLAN
tag cell holds the destination identifier, its source MAC is the reflector MAC and its
destination MAC is the multicast MAC for its IP version, so the parsed packet is not
what it was before the call; the buffer written is what `SerializePacket` makes of that
same packet, and is that packet whenever `SerializePacket` returns no error; the frame's
three pointers `srcMAC`, `dstMAC` and `vlanTag` point where they pointed before the call
and its `isIPv6` and `isDNSQuery` flags are as before. -/
theorem rewriter_writes_in_place (decodeDNS : DNSDecoder) (br : HardwareAddr)
    (packet : Packet) (bp : bonjourPacket) (tag : Nat)
    (hclass : filterPacket decodeDNS packet br = .pass bp) :
    ∃ bp1 e, sendBonjourPacket (defaultVLANTag bp) tag br = some (bp1, e)
      ∧ e.frame = (SerializePacket bp1.packet).1
      ∧ ((SerializePacket bp1.packet).2 = true → e.frame = bp1.packet)
      ∧ bp1.vlanTag.bind (loadUint16 bp1.packet) = some tag
      ∧ frameSrcMAC bp1.packet = some br
      ∧ frameDstMAC bp1.packet
          = some (if bp.isIPv6 = true then [0x33, 0x33, 0x00, 0x00, 0x00, 0xFB]
              else [0x01, 0x00, 0x5E, 0x00, 0x00, 0xFB])
      ∧ bp1.packet ≠ bp.packet
      ∧ bp1.srcMAC = (defaultVLANTag bp).srcMAC ∧ bp1.dstMAC = (defaultVLANTag bp).dstMAC
      ∧ bp1.vlanTag.map Uint16Ptr.address = (defaultVLANTag bp).vlanTag.map Uint16Ptr.address
      ∧ bp1.isIPv6 = (defaultVLANTag bp).isIPv6
      ∧ bp1.isDNSQuery = (defaultVLANTag bp).isDNSQuery := by
  obtain ⟨i, hr⟩ := ready_of_pass decodeDNS packet br bp hclass
  obtain ⟨k, s, d, t, hk, hkl, hs, _, _, hbp⟩ := filterPacket_pass decodeDNS packet br bp hclass
  have hpk : (defaultVLANTag bp).packet = packet := by
    rw [hbp]; unfold defaultVLANTag; split <;> rfl
  have hbpk : bp.packet = packet := by rw [hbp]
  have hv6 : (defaultVLANTag bp).isIPv6 = bp.isIPv6 := by
    unfold defaultVLANTag; split <;> rfl
  have hi : layerIndex .LayerTypeEthernet packet = some i := by
    have := hr.eth
    rwa [hpk] at this
  obtain ⟨bp1, h1, h1pk, _, h16, h1q, h1s, h1d, h1a, h1v⟩ :=
    sendBonjourPacket_ready _ i tag br hr
  have hsrc1 : frameSrcMAC bp1.packet = some br := by
    rw [h1pk, hpk]
    exact frameSrcMAC_outgoing br _ i packet tag hi
  rw [← h1pk] at h1
  refine ⟨bp1, _, h1, rfl, ?_, h1v, hsrc1, ?_, ?_, h1s, h1d, h1a, h16, h1q⟩
  · intro hok
    exact SerializePacket_eq _ hok
  · rw [h1pk, hpk, hv6]
    simpa [multicastMAC] using frameDstMAC_outgoing br bp.isIPv6 i packet tag hi
  · intro heq
    have hsrc0 : frameSrcMAC packet = some s := by
      simp [frameSrcMAC, parseEthernetLayer, hk, loadSrcMAC, hkl]
    rw [heq, hbpk, hsrc0] at hsrc1
    simp only [Option.some.injEq] at hsrc1
    exact hs (by rw [hsrc1])

/-- The in-place rewrite on the untagged query, for destination 10: the tag cell is the
variable outside the packet, and `vlanTag` still points at it after the call. -/
theorem rewriter_writes_in_place_witness :
    filterPacket decodeDNSHeader untaggedQuery reflectorMAC
        = .pass (classified decodeDNSHeader untaggedQuery)
      ∧ ∃ bp1 e, sendBonjourPacket (defaultVLANTag (classified decodeDNSHeader untaggedQuery)) 10
            reflectorMAC = some (bp1, e)
          ∧ e.frame = (SerializePacket bp1.packet).1
          ∧ ((SerializePacket bp1.packet).2 = true → e.frame = bp1.packet)
          ∧ bp1.vlanTag.bind (loadUint16 bp1.packet) = some 10
          ∧ frameSrcMAC bp1.packet = some reflectorMAC
          ∧ frameDstMAC bp1.packet
              = some (if (classified decodeDNSHeader untaggedQuery).isIPv6 = true
                  then [0x33, 0x33, 0x00, 0x00, 0x00, 0xFB]
                  else [0x01, 0x00, 0x5E, 0x00, 0x00, 0xFB])
          ∧ bp1.packet ≠ (classified decodeDNSHeader untaggedQuery).packet
          ∧ bp1.srcMAC = (defaultVLANTag (classified decodeDNSHeader untaggedQuery)).srcMAC
          ∧ bp1.dstMAC = (defaultVLANTag (classified decodeDNSHeader untaggedQuery)).dstMAC
          ∧ bp1.vlanTag.map Uint16Ptr.address
              = (defaultVLANTag (classified decodeDNSHeader untaggedQuery)).vlanTag.map
                  Uint16Ptr.address
          ∧ bp1.isIPv6 = (defaultVLANTag (classified decodeDNSHeader untaggedQuery)).isIPv6
          ∧ bp1.isDNSQuery
              = (defaultVLANTag (classified decodeDNSHeader untaggedQuery)).isDNSQuery :=
  ⟨by decide, rewriter_writes_in_place decodeDNSHeader reflectorMAC untaggedQuery
    (classified decodeDNSHeader untaggedQuery) 10 (by decide)⟩

/-! ## The classifier and missing layers -/

/-- C9, counterexample: a frame to the mDNS group on port 5353 with an empty UDP
payload, which no decoder that rejects the empty payload parses as DNS, is put on the
channel as a response and forwarded; and a frame without an Ethernet layer is not
classified at all: the filter goroutine fails on it. -/
theorem empty_payload_is_forwarded :
    (parseUDPLayer emptyPayloadFrame).2 = []
      ∧ decodeDNSHeader [] = none
      ∧ (∀ decodeDNS : DNSDecoder, decodeDNS [] = none →
          filterPacket decodeDNS emptyPayloadFrame reflectorMAC
            = .pass { packet := emptyPayloadFrame, srcMAC := some 0, dstMAC := some 0,
                      isIPv6 := false, vlanTag := none, isDNSQuery := false })
      ∧ (reflect decodeDNSHeader exampleDevices examplePools reflectorMAC [emptyPayloadFrame]).map
          (fun es => es.map (fun e => e.tag)) = some [10]
      ∧ filterPacket decodeDNSHeader [] reflectorMAC = .crash := by
  refine ⟨by decide, by decide, ?_, by decide, by decide⟩
  intro decodeDNS h
  rw [filterPacket_of_other_source decodeDNS reflectorMAC emptyPayloadFrame deviceMAC
    (by decide) (by decide)]
  have h1 : ¬ (ipString (parseIPLayer emptyPayloadFrame).1 ≠ "224.0.0.251".toList
      ∧ ipString (parseIPLayer emptyPayloadFrame).1 ≠ "ff02::fb".toList) := by decide
  have h2 : ¬ (parseUDPLayer emptyPayloadFrame).1 ≠ 5353 := by decide
  have h3 : (parseUDPLayer emptyPayloadFrame).2 = [] := by decide
  rw [if_neg h1, if_neg h2, h3]
  simp only [parseDNSPayload, h]
  rfl

/-- C9, amended: for a captured frame with an Ethernet layer, a missing IP layer (neither
IPv4 nor IPv6) or a missing UDP layer makes the filter skip the frame, so nothing is put
on the channel; a payload that does not parse as DNS is not a reject condition: when the
source MAC is not the reflector's, the destination prints as one of the two mDNS groups
and the UDP destination port is 5353, the frame is put on the channel with
`isDNSQuery = false`. -/
theorem missing_layer_outcomes (decodeDNS : DNSDecoder) (br : HardwareAddr) (packet : Packet)
    (src : HardwareAddr) (heth : frameSrcMAC packet = some src) :
    (((layerIndex .LayerTypeIPv4 packet = none ∧ layerIndex .LayerTypeIPv6 packet = none)
          ∨ layerIndex .LayerTypeUDP packet = none) →
        filterPacket decodeDNS packet br = .skip)
      ∧ (src ≠ br →
          (ipString (parseIPLayer packet).1 = "224.0.0.251".toList
            ∨ ipString (parseIPLayer packet).1 = "ff02::fb".toList) →
          (parseUDPLayer packet).1 = 5353 →
          decodeDNS (parseUDPLayer packet).2 = none →
          ∃ bp, filterPacket decodeDNS packet br = .pass bp ∧ bp.isDNSQuery = false) := by
  have hload : (parseEthernetLayer packet).1.bind (loadSrcMAC packet) = some src := heth
  constructor
  · intro h
    unfold filterPacket
    simp only [hload]
    split_ifs with h1 h2 h3
    · rfl
    · rfl
    · rfl
    · exfalso
      rcases h with ⟨h4, h6⟩ | hu
      · have : parseIPLayer packet = ([], false) := by simp [parseIPLayer, h4, h6]
        rw [this] at h2
        exact h2 (by decide)
      · have : parseUDPLayer packet = (0, []) := by simp [parseUDPLayer, hu]
        rw [this] at h3
        exact h3 (by decide)
  · intro hne hip hport hdns
    rw [filterPacket_of_other_source decodeDNS br packet src heth hne]
    have h1 : ¬ (ipString (parseIPLayer packet).1 ≠ "224.0.0.251".toList
        ∧ ipString (parseIPLayer packet).1 ≠ "ff02::fb".toList) := by
      rintro ⟨a, b⟩
      rcases hip with e | e
      · exact a e
      · exact b e
    rw [if_neg h1, if_neg (not_not.mpr hport)]
    exact ⟨_, rfl, by simp [parseDNSPayload, hdns]⟩

/-- The outcomes of the filter on the frame with an empty UDP payload. -/
theorem missing_layer_outcomes_witness :
    frameSrcMAC emptyPayloadFrame = some deviceMAC
      ∧ (((layerIndex .LayerTypeIPv4 emptyPayloadFrame = none
              ∧ layerIndex .LayerTypeIPv6 emptyPayloadFrame = none)
            ∨ layerIndex .LayerTypeUDP emptyPayloadFrame = none) →
          filterPacket decodeDNSHeader emptyPayloadFrame reflectorMAC = .skip)
      ∧ (deviceMAC ≠ reflectorMAC →
          (ipString (parseIPLayer emptyPayloadFrame).1 = "224.0.0.251".toList
            ∨ ipString (parseIPLayer emptyPayloadFrame).1 = "ff02::fb".toList) →
          (parseUDPLayer emptyPayloadFrame).1 = 5353 →
          decodeDNSHeader (parseUDPLayer emptyPayloadFrame).2 = none →
          ∃ bp, filterPacket decodeDNSHeader emptyPayloadFrame reflectorMAC = .pass bp
            ∧ bp.isDNSQuery = false) :=
  ⟨by decide, missing_layer_outcomes decodeDNSHeader reflectorMAC emptyPayloadFrame deviceMAC
    (by decide)⟩

end BonjourReflector
